import Mathlib

/-!
Verification development for the cyber-researcher job-orchestration core.

Text is modelled as `List Nat` of Unicode code points (`Str`), so that the
Python string operations of the source (slicing, `len`, `str.replace`,
`str.strip`, `str.title`, regex tokenization) become ordinary list functions
with cheap kernel evaluation.
-/

set_option maxRecDepth 4000

namespace CyberResearcher

/-- A text value: the list of Unicode code points of a Python `str`. -/
abbrev Str := List Nat

/-- Convert a Lean string literal into its code-point list. -/
def str (s : String) : Str := s.data.map Char.toNat

/-- ASCII lower-casing of one code point, as `str.lower` does for ASCII. -/
def lowerC (c : Nat) : Nat := if 65 ≤ c ∧ c ≤ 90 then c + 32 else c

/-- ASCII upper-casing of one code point. -/
def upperC (c : Nat) : Nat := if 97 ≤ c ∧ c ≤ 122 then c - 32 else c

/-- Is the code point an ASCII letter (`[a-zA-Z]`)? -/
def isAlphaC (c : Nat) : Bool := (65 ≤ c ∧ c ≤ 90) ∨ (97 ≤ c ∧ c ≤ 122)

/-- Is the code point an ASCII digit? -/
def isDigitC (c : Nat) : Bool := 48 ≤ c ∧ c ≤ 57

/-- Is the code point a regex word character (`[a-zA-Z0-9_]`)? -/
def isWordC (c : Nat) : Bool := isAlphaC c || isDigitC c || c = 95

/-- Python whitespace (the ASCII part relevant to this code base). -/
def isSpaceC (c : Nat) : Bool := c = 32 || c = 9 || c = 10 || c = 13 || c = 11 || c = 12

/-- Python `text.lower()` on code points. -/
def lowerS (s : Str) : Str := s.map lowerC

/-- Python `text.strip()` (whitespace from both ends). -/
def stripS (s : Str) : Str :=
  ((s.dropWhile isSpaceC).reverse.dropWhile isSpaceC).reverse

/-- Python `text.rstrip(chars)`: drop trailing code points in `set`. -/
def rstripSet (set : Str) (s : Str) : Str :=
  (s.reverse.dropWhile (fun c => set.contains c)).reverse

/-- Does `s` start with `pat`? -/
def startsW : Str → Str → Bool
  | [], _ => true
  | _ :: _, [] => false
  | p :: ps, c :: cs => p = c && startsW ps cs

/-- Does `pat` occur as a contiguous substring of `s`? -/
def hasSub (pat : Str) : Str → Bool
  | [] => startsW pat []
  | c :: cs => startsW pat (c :: cs) || hasSub pat cs

/-- Python `s.replace(pat, rep)` for a nonempty `pat`: replace all
non-overlapping occurrences, scanning left to right. -/
def replaceAll (pat rep : Str) : Str → Str
  | [] => []
  | c :: cs =>
    if pat ≠ [] ∧ startsW pat (c :: cs) then
      rep ++ replaceAll pat rep (cs.drop (pat.length - 1))
    else
      c :: replaceAll pat rep cs
termination_by s => s.length
decreasing_by
  · simp only [List.length_drop, List.length_cons]
    omega
  · simp only [List.length_cons]
    omega

/-- Index of the last space in `s` (Python `s.rfind(" ")`, `none` for `-1`). -/
def rfindSpace (s : Str) : Option Nat :=
  ((List.range s.length).filter (fun i => s.get? i = some 32)).getLast?

/-- Python `str.title()` restricted to ASCII letters: the first letter of
every letter run is upper-cased, the following letters lower-cased. -/
def titleAux : Str → Bool → Str
  | [], _ => []
  | c :: cs, prevAlpha =>
    (if isAlphaC c then (if prevAlpha then lowerC c else upperC c) else c)
      :: titleAux cs (isAlphaC c)

/-- Python `str.title()` (ASCII semantics, as used on keywords and enum values). -/
def titleS (s : Str) : Str := titleAux s false

/-- Decimal digits of a natural number, most significant first
(accumulator form). -/
def natToCharsAux : Nat → Str → Str
  | n, acc =>
    if n < 10 then (48 + n) :: acc
    else natToCharsAux (n / 10) ((48 + n % 10) :: acc)
termination_by n => n
decreasing_by
  exact Nat.div_lt_self (by omega) (by omega)

/-- Decimal digits of a natural number, most significant first (Python
`str(n)` for a nonnegative int). -/
def natToChars (n : Nat) : Str :=
  natToCharsAux n []

/-- Python `", ".join`-style intercalation. -/
def joinSep (sep : Str) (parts : List Str) : Str :=
  (parts.intersperse sep).flatten

/-! ## Title generator (`src/cyber_storm/modules/title_generator.py`)

The module-level `title_generator` instance uses the default `TitleConfig`:
`max_length = 80`, `min_length = 20`, `style = "engaging"`. -/

/-- `TitleConfig.max_length` of the default configuration. -/
def cfg_max_length : Nat := 80

/-- `TitleConfig.min_length` of the default configuration. -/
def cfg_min_length : Nat := 20

/-- `TitleGenerator.cybersecurity_keywords`. -/
def cybersecurity_keywords : List Str :=
  [str "threat", str "security", str "attack", str "defense", str "vulnerability",
   str "breach", str "malware", str "ransomware", str "phishing", str "zero-day",
   str "encryption", str "firewall", str "intrusion", str "detection", str "prevention",
   str "incident", str "response", str "forensics", str "compliance", str "risk",
   str "assessment", str "audit", str "penetration", str "testing", str "authentication",
   str "authorization", str "identity", str "access", str "management", str "cloud",
   str "network", str "endpoint", str "infrastructure", str "data", str "privacy",
   str "governance", str "framework", str "standards", str "regulations", str "cyber",
   str "digital"]

/-- `TitleGenerator.stop_words`. -/
def stop_words : List Str :=
  [str "the", str "a", str "an", str "and", str "or", str "but", str "in", str "on",
   str "at", str "to", str "for", str "of", str "with", str "by", str "about",
   str "into", str "through", str "during", str "before", str "after", str "above",
   str "below", str "up", str "down", str "out", str "off", str "over", str "under",
   str "again", str "further", str "then", str "once", str "very", str "also",
   str "just", str "now", str "how", str "what", str "where", str "when", str "why",
   str "which", str "who", str "whom"]

/-- Maximal runs of characters satisfying `p`, accumulator form. -/
def runsByAux (p : Nat → Bool) : Str → Str → List Str
  | acc, [] => if acc = [] then [] else [acc.reverse]
  | acc, c :: cs =>
    if p c then runsByAux p (c :: acc) cs
    else if acc = [] then runsByAux p [] cs
    else acc.reverse :: runsByAux p [] cs

/-- Maximal runs of characters satisfying `p` in `s`. -/
def runsBy (p : Nat → Bool) (s : Str) : List Str := runsByAux p [] s

/-- Maximal runs of regex word characters in `s`. -/
def wordRuns (s : Str) : List Str := runsBy isWordC s

/-- `re.findall(r"\b[a-zA-Z]+\b", s)`: the maximal word-character runs made up
solely of letters (a run touching a digit or underscore has no `\b` boundary
and is not matched). -/
def regexTokens (s : Str) : List Str :=
  (wordRuns s).filter (fun r => r.all isAlphaC)

/-- `TitleGenerator._tokenize_text`: lowercase, match `\b[a-zA-Z]+\b`,
keep words longer than 2 characters. -/
def tokenize_text (text : Str) : List Str :=
  (regexTokens (lowerS text)).filter (fun w => decide (2 < w.length))

/-- The raw `keywords` list in `_extract_keywords`: topic tokens, then the
cybersecurity keywords found in the first 500 characters of the content. -/
def keywordCandidates (topic : Str) (content : Option Str) : List Str :=
  tokenize_text topic ++
    match content with
    | none => []
    | some c =>
      (tokenize_text (lowerS (c.take 500))).filter
        (fun w => decide (w ∈ cybersecurity_keywords))

/-- First filtering pass of `_extract_keywords` (cybersecurity keywords),
carrying `filtered_keywords` and `seen`. -/
def passOne : List Str → List Str × List Str → List Str × List Str
  | [], st => st
  | w :: rest, (filtered, seen) =>
    if w ∉ seen ∧ w ∉ stop_words ∧ w ∈ cybersecurity_keywords ∧ 2 < w.length then
      passOne rest (filtered ++ [w], seen ++ [w])
    else
      passOne rest (filtered, seen)

/-- Second filtering pass of `_extract_keywords` (other important words). -/
def passTwo : List Str → List Str × List Str → List Str × List Str
  | [], st => st
  | w :: rest, (filtered, seen) =>
    if w ∉ seen ∧ w ∉ stop_words ∧ 2 < w.length ∧ filtered.length < 8 then
      passTwo rest (filtered ++ [w], seen ++ [w])
    else
      passTwo rest (filtered, seen)

/-- `TitleGenerator._extract_keywords`. -/
def extract_keywords (topic : Str) (content : Option Str) : List Str :=
  let ws := keywordCandidates topic content
  (passTwo ws (passOne ws ([], []))).1.take 6

/-- First "engaging" pattern: `f"{k0.title()} {k1.title()}: A Complete Guide"`. -/
def pat1 (k0 k1 : Str) : Str :=
  titleS k0 ++ str " " ++ titleS k1 ++ str ": A Complete Guide"

/-- Second "engaging" pattern. -/
def pat2 (k0 k1 : Str) : Str :=
  str "Understanding " ++ titleS k0 ++ str " in " ++ titleS k1

/-- Third "engaging" pattern. -/
def pat3 (k0 : Str) : Str :=
  titleS k0 ++ str " Best Practices for Modern Security"

/-- Fourth "engaging" pattern. -/
def pat4 (k0 : Str) : Str :=
  str "Essential " ++ titleS k0 ++ str " Strategies You Need to Know"

/-- Fifth "engaging" pattern. -/
def pat5 (k0 k1 : Str) : Str :=
  str "The Ultimate Guide to " ++ titleS k0 ++ str " " ++ titleS k1

/-- `TitleGenerator._generate_blog_title` for the default "engaging" style.
With exactly one keyword, building the pattern list evaluates `keywords[1]`
and raises `IndexError`; that outcome is modelled as `none` and is handled
by the `except` clause of `generate_title`. -/
def generate_blog_title (topic : Str) (keywords : List Str) : Option Str :=
  match keywords with
  | [] => some topic
  | [_] => none
  | k0 :: k1 :: _ =>
    let patterns := [pat1 k0 k1, pat2 k0 k1, pat3 k0, pat4 k0, pat5 k0 k1]
    match patterns.find? (fun p => decide (p.length ≤ cfg_max_length)) with
    | some p => some p
    | none => some (joinSep (str " ") ((keywords.take 3).map titleS))

/-- The Python comparison `last_space > max_length * 0.7` on IEEE doubles.
For the lengths this module uses (60, 65 and 80) the double product
`max_length * 0.7` equals the exact rational value (`80 * 0.7` rounds to
exactly `56.0`), so the comparison is the exact rational one. -/
def floatGtPoint7 (max_length last_space : Nat) : Bool :=
  decide (7 * max_length < 10 * last_space)

/-- `TitleGenerator._truncate_intelligently`. -/
def truncate_intelligently (text : Str) (max_length : Nat) : Str :=
  if text.length ≤ max_length then text
  else
    match rfindSpace (text.take max_length) with
    | some last_space =>
      if floatGtPoint7 max_length last_space then
        rstripSet (str ",:;-") (text.take last_space)
      else
        rstripSet (str ",:;- ") (text.take (max_length - 3)) ++ str "..."
    | none => rstripSet (str ",:;- ") (text.take (max_length - 3)) ++ str "..."

/-- `redundant_phrases` of `_optimize_title_length`. -/
def redundant_phrases : List Str :=
  [str "A Complete Guide to", str "A Comprehensive Guide to", str "An Introduction to",
   str "Understanding the", str "The Ultimate Guide to", str "Best Practices for",
   str "Advanced Techniques for", str "Professional Guide to", str "Complete Analysis of"]

/-- `abbreviations` of `_optimize_title_length`. -/
def abbreviations : List (Str × Str) :=
  [(str "Information Security", str "InfoSec"), (str "Cybersecurity", str "CyberSec"),
   (str "Application Security", str "AppSec"), (str "Network Security", str "NetSec"),
   (str "Cloud Security", str "CloudSec"), (str "Infrastructure", str "Infra"),
   (str "Management", str "Mgmt"), (str "Implementation", str "Impl"),
   (str "Assessment", str "Assessment"), (str "Analysis", str "Analysis")]

/-- The phrase-stripping loop of `_optimize_title_length`: repeatedly remove a
redundant phrase and strip; return early (`some`) once the result fits below
`max_length` while exceeding `min_length`. Also yields the final `optimized`
value for the case where no early return fires. -/
def stripPhrases : Str → List Str → Option Str × Str
  | optimized, [] => (none, optimized)
  | optimized, p :: ps =>
    let o := stripS (replaceAll p [] optimized)
    if o.length ≤ cfg_max_length ∧ cfg_min_length < o.length then (some o, o)
    else stripPhrases o ps

/-- The abbreviation loop of `_optimize_title_length`: substitute each long
form and return early once the result fits within `max_length`. -/
def applyAbbrevs : Str → List (Str × Str) → Option Str × Str
  | optimized, [] => (none, optimized)
  | optimized, (full, ab) :: rest =>
    let o := replaceAll full ab optimized
    if o.length ≤ cfg_max_length then (some o, o)
    else applyAbbrevs o rest

/-- `TitleGenerator._optimize_title_length` (the `keywords` parameter is
accepted but never used, as in the source). -/
def optimize_title_length (title : Str) (keywords : List Str) : Str :=
  if title.length ≤ cfg_max_length then title
  else
    match stripPhrases title redundant_phrases with
    | (some r, _) => r
    | (none, o1) =>
      match applyAbbrevs o1 abbreviations with
      | (some r, _) => r
      | (none, o2) => truncate_intelligently o2 cfg_max_length

/-- `TitleGenerator._generate_chapter_title`. -/
def generate_chapter_title (topic : Str) (keywords : List Str) (chapter_number : Nat) : Str :=
  match keywords with
  | [] =>
    str "Chapter " ++ natToChars chapter_number ++ str ": " ++
      truncate_intelligently topic (cfg_max_length - 15)
  | k0 :: rest =>
    let title_part :=
      match rest with
      | k1 :: _ => titleS k0 ++ str " and " ++ titleS k1
      | [] => titleS k0
    let chapter_title :=
      str "Chapter " ++ natToChars chapter_number ++ str ": " ++ title_part
    match rest with
    | _ :: k2 :: _ =>
      if chapter_title.length < cfg_max_length - 20 then
        chapter_title ++ str " - " ++ titleS k2
      else chapter_title
    | _ => chapter_title

/-- `TitleGenerator._generate_report_title`. -/
def generate_report_title (topic : Str) (keywords : List Str) (report_type : Str) : Str :=
  match keywords with
  | [] =>
    report_type ++ str ": " ++ truncate_intelligently topic (cfg_max_length - 20)
  | k0 :: rest =>
    let title_part :=
      match rest with
      | k1 :: _ => titleS k0 ++ str " " ++ titleS k1
      | [] => titleS k0
    let reportKind :=
      if str "threat" ∈ keywords ∨ str "attack" ∈ keywords then str "Threat Assessment"
      else if str "risk" ∈ keywords ∨ str "vulnerability" ∈ keywords then str "Risk Analysis"
      else if str "incident" ∈ keywords ∨ str "response" ∈ keywords then str "Incident Analysis"
      else str "Security Analysis"
    reportKind ++ str ": " ++ title_part

/-- `TitleGenerator._fallback_title`. -/
def fallback_title (topic : Str) (content_type : Str) (chapter_number : Nat) : Str :=
  if content_type = str "book_chapter" then
    str "Chapter " ++ natToChars chapter_number ++ str ": " ++ truncate_intelligently topic 60
  else if content_type = str "research_report" then
    str "Security Analysis: " ++ truncate_intelligently topic 60
  else
    truncate_intelligently topic cfg_max_length

/-- `TitleGenerator.generate_title`: keyword extraction, a content-type
specific base title, and length optimization; any exception (the
single-keyword `IndexError` of the blog patterns) falls back to
`_fallback_title`. -/
def generate_title (topic : Str) (content : Option Str) (content_type : Str)
    (chapter_number : Nat) (report_type : Str) : Str :=
  let keywords := extract_keywords topic content
  let base :=
    if content_type = str "book_chapter" then
      some (generate_chapter_title topic keywords chapter_number)
    else if content_type = str "research_report" then
      some (generate_report_title topic keywords report_type)
    else
      generate_blog_title topic keywords
  match base with
  | some b => optimize_title_length b keywords
  | none => fallback_title topic content_type chapter_number

/-- The unary optimizer of the spec: `optimize(text, L)` at the configured
`L = 80`, i.e. `generate_title` for a blog post with no content sample. -/
def optimize (text : Str) : Str :=
  generate_title text none (str "blog_post") 1 (str "Security Analysis")

/-! ## Workflow tracker (`src/cyber_storm/workflow_tracker.py`)

Timestamps are modelled as natural numbers of seconds, supplied to every
operation that calls `datetime.now()`; `uuid.uuid4()` values are modelled
as caller-supplied opaque numeric ids. -/

/-- `ActivityStatus` enum. -/
inductive ActivityStatus
  | pending
  | running
  | completed
  | failed
deriving DecidableEq, Repr

/-- One value inside an opaque `Dict[str, Any]` payload snapshot. -/
inductive DataVal
  | s (v : Str)
  | n (v : Nat)
  | b (v : Bool)
deriving DecidableEq, Repr

/-- An opaque key/value payload (`input_data` / `output_data` snapshots). -/
abbrev KV := List (Str × DataVal)

/-- `AgentActivityRecord` dataclass. -/
structure AgentActivityRecord where
  activity_id : Nat
  session_id : Str
  agent_name : Str
  agent_type : Str
  step_name : Str
  step_order : Nat
  status : ActivityStatus
  input_data : Option KV
  output_data : Option KV
  sources : Option (List Str)
  start_time : Option Nat
  end_time : Option Nat
  duration_seconds : Option Nat
  error_message : Option Str
  retry_count : Nat
  step_metadata : Option KV
deriving DecidableEq, Repr

/-- The `workflow_summary` dictionary of the tracker. -/
structure WorkflowSummary where
  session_id : Str
  start_time : Nat
  agents_used : List Str
  total_steps : Nat
  completed_steps : Nat
  failed_steps : Nat
  status : Str
deriving DecidableEq, Repr

/-- `WorkflowTracker` state. `current_activities` holds the keys of the
id → record dict in insertion order; the record a key refers to is the last
record in `activities` with that id (they alias the same object in Python). -/
structure WorkflowTracker where
  session_id : Str
  activities : List AgentActivityRecord
  step_counter : Nat
  current_activities : List Nat
  workflow_summary : WorkflowSummary
deriving DecidableEq, Repr

/-- `WorkflowTracker.__init__`. -/
def WorkflowTracker.init (session_id : Str) (now : Nat) : WorkflowTracker where
  session_id := session_id
  activities := []
  step_counter := 0
  current_activities := []
  workflow_summary :=
    { session_id := session_id
      start_time := now
      agents_used := []
      total_steps := 0
      completed_steps := 0
      failed_steps := 0
      status := str "running" }

/-- Apply `f` to the first record with the given id. -/
def updateFirstRecord (id : Nat) (f : AgentActivityRecord → AgentActivityRecord) :
    List AgentActivityRecord → List AgentActivityRecord
  | [] => []
  | r :: rest =>
    if r.activity_id = id then f r :: rest
    else r :: updateFirstRecord id f rest

/-- Apply `f` to the last record with the given id: the object the
`current_activities` dict references when ids collide. -/
def updateLastRecord (id : Nat) (f : AgentActivityRecord → AgentActivityRecord)
    (l : List AgentActivityRecord) : List AgentActivityRecord :=
  (updateFirstRecord id f l.reverse).reverse

/-- `WorkflowTracker.start_activity`: assign the next `step_order`, create a
`RUNNING` record, register it in `current_activities`, update the summary,
and return the new activity id. -/
def start_activity (tr : WorkflowTracker) (agent_name agent_type step_name : Str)
    (input_data step_metadata : Option KV) (activity_id : Nat) (now : Nat) :
    WorkflowTracker × Nat :=
  let activity : AgentActivityRecord :=
    { activity_id := activity_id
      session_id := tr.session_id
      agent_name := agent_name
      agent_type := agent_type
      step_name := step_name
      step_order := tr.step_counter + 1
      status := .running
      input_data := input_data
      output_data := none
      sources := none
      start_time := some now
      end_time := none
      duration_seconds := none
      error_message := none
      retry_count := 0
      step_metadata := some (step_metadata.getD []) }
  let su := tr.workflow_summary
  ({ tr with
      step_counter := tr.step_counter + 1
      activities := tr.activities ++ [activity]
      current_activities :=
        if activity_id ∈ tr.current_activities then tr.current_activities
        else tr.current_activities ++ [activity_id]
      workflow_summary :=
        { su with
          agents_used :=
            if agent_name ∈ su.agents_used then su.agents_used
            else su.agents_used ++ [agent_name]
          total_steps := su.total_steps + 1 } },
   activity_id)

/-- The field updates `complete_activity` applies to the running record. -/
def completeRecord (output_data : Option KV) (sources : Option (List Str)) (now : Nat)
    (a : AgentActivityRecord) : AgentActivityRecord :=
  let a1 := { a with
    status := ActivityStatus.completed
    end_time := some now
    output_data := output_data
    sources := sources }
  match a1.start_time with
  | some t => { a1 with duration_seconds := some (now - t) }
  | none => a1

/-- `WorkflowTracker.complete_activity`: a no-op unless the id is in
`current_activities`; otherwise stamp end time, record the output, compute
the duration, bump `completed_steps` and deregister the activity. -/
def complete_activity (tr : WorkflowTracker) (activity_id : Nat)
    (output_data : Option KV) (sources : Option (List Str)) (now : Nat) :
    WorkflowTracker :=
  if activity_id ∈ tr.current_activities then
    { tr with
      activities := updateLastRecord activity_id (completeRecord output_data sources now) tr.activities
      current_activities := tr.current_activities.erase activity_id
      workflow_summary :=
        { tr.workflow_summary with
          completed_steps := tr.workflow_summary.completed_steps + 1 } }
  else tr

/-- The field updates `fail_activity` applies to the running record. -/
def failRecord (error_message : Str) (retry_count : Nat) (now : Nat)
    (a : AgentActivityRecord) : AgentActivityRecord :=
  let a1 := { a with
    status := ActivityStatus.failed
    end_time := some now
    error_message := some error_message
    retry_count := retry_count }
  match a1.start_time with
  | some t => { a1 with duration_seconds := some (now - t) }
  | none => a1

/-- `WorkflowTracker.fail_activity`: a no-op unless the id is in
`current_activities`; otherwise stamp end time, record the error, compute
the duration, bump `failed_steps` and deregister the activity. -/
def fail_activity (tr : WorkflowTracker) (activity_id : Nat) (error_message : Str)
    (retry_count : Nat) (now : Nat) : WorkflowTracker :=
  if activity_id ∈ tr.current_activities then
    { tr with
      activities := updateLastRecord activity_id (failRecord error_message retry_count now) tr.activities
      current_activities := tr.current_activities.erase activity_id
      workflow_summary :=
        { tr.workflow_summary with
          failed_steps := tr.workflow_summary.failed_steps + 1 } }
  else tr

/-- The finalized summary header of `get_workflow_metadata`. -/
structure FinalizedSummary where
  base : WorkflowSummary
  end_time : Nat
  final_status : Str
deriving DecidableEq, Repr

/-- `WorkflowTracker.get_workflow_metadata` as a pure projection: the
finalized summary plus the projected activity dictionaries (the per-record
projection is the identity on our record model). -/
def get_workflow_metadata (tr : WorkflowTracker) (now : Nat) :
    FinalizedSummary × List AgentActivityRecord :=
  ({ base := tr.workflow_summary
     end_time := now
     final_status :=
       if tr.current_activities.isEmpty then str "completed" else str "running" },
   tr.activities)

/-- One step of `get_generation_process`. -/
structure GenerationStep where
  step_order : Nat
  agent : Str
  action : Str
  status : ActivityStatus
  duration_seconds : Option Nat
  timestamp : Option Nat
deriving DecidableEq, Repr

/-- Stable insertion into a list sorted by `step_order` (models Python's
stable `sorted`). -/
def insertByOrder (g : GenerationStep) : List GenerationStep → List GenerationStep
  | [] => [g]
  | h :: t => if g.step_order < h.step_order then g :: h :: t else h :: insertByOrder g t

/-- Stable sort by `step_order`. -/
def sortByOrder : List GenerationStep → List GenerationStep
  | [] => []
  | h :: t => insertByOrder h (sortByOrder t)

/-- `WorkflowTracker.get_generation_process`. -/
structure GenerationProcess where
  steps : List GenerationStep
  total_steps : Nat
  completed_steps : Nat
  failed_steps : Nat
deriving DecidableEq, Repr

/-- `WorkflowTracker.get_generation_process`: step-by-step projection of the
ledger, sorted by step order. -/
def get_generation_process (tr : WorkflowTracker) : GenerationProcess where
  steps :=
    sortByOrder (tr.activities.map (fun a =>
      { step_order := a.step_order
        agent := a.agent_name
        action := a.step_name
        status := a.status
        duration_seconds := a.duration_seconds
        timestamp := a.start_time }))
  total_steps := tr.activities.length
  completed_steps := (tr.activities.filter (fun a => a.status = ActivityStatus.completed)).length
  failed_steps := (tr.activities.filter (fun a => a.status = ActivityStatus.failed)).length

/-- One agent's entry in `get_agent_contributions_summary`. -/
structure AgentContribution where
  agent_name : Str
  status : Str
  contribution_type : Str
  steps_completed : Nat
  total_duration : Nat
  sources : List Str
deriving DecidableEq, Repr

/-- First-occurrence deduplication; models `list(set(...))` up to the
(unspecified) iteration order of a Python set. -/
def dedupKeepFirst : List Str → List Str
  | [] => []
  | x :: xs => x :: (dedupKeepFirst (xs.filter (fun y => ¬ y = x)))
termination_by l => l.length
decreasing_by
  have := List.length_filter_le (fun y => decide ¬ y = k0) rest
  simp only [List.length_cons]
  omega

/-- The per-activity accumulation step of `get_agent_contributions_summary`. -/
def contribStep (acc : List AgentContribution) (a : AgentActivityRecord) :
    List AgentContribution :=
  let acc1 :=
    if (acc.filter (fun c => c.agent_name = a.agent_name)).isEmpty then
      acc ++ [{ agent_name := a.agent_name
                status := if a.status = ActivityStatus.completed
                          then str "completed" else str "failed"
                contribution_type := a.agent_type
                steps_completed := 0
                total_duration := 0
                sources := [] }]
    else acc
  if a.status = ActivityStatus.completed then
    acc1.map (fun c =>
      if c.agent_name = a.agent_name then
        { c with
          steps_completed := c.steps_completed + 1
          total_duration := c.total_duration + (a.duration_seconds.getD 0)
          sources := c.sources ++ (a.sources.getD []) }
      else c)
  else acc1

/-- `WorkflowTracker.get_agent_contributions_summary`. -/
def get_agent_contributions_summary (tr : WorkflowTracker) : List AgentContribution :=
  (tr.activities.foldl contribStep []).map
    (fun c => { c with sources := dedupKeepFirst c.sources })

/-! ## Blog template (`src/cyber_storm/templates/blog_template.py`) -/

/-- Python `s.split(sep)` for a one-character separator: the pieces between
occurrences of `c`, empty pieces included. -/
def splitOnC (c : Nat) : Str → List Str
  | [] => [[]]
  | x :: xs =>
    if x = c then [] :: splitOnC c xs
    else
      match splitOnC c xs with
      | [] => [[x]]
      | h :: t => (x :: h) :: t

/-- Index of the first occurrence of `pat` in `s`. -/
def findSubIdx (pat s : Str) : Option Nat :=
  (List.range (s.length + 1)).find? (fun i => startsW pat (s.drop i))

/-- `re.compile(re.escape(term), re.IGNORECASE).sub(f"**{term}**", text, count=1)`:
replace the first case-insensitive occurrence of `term` with the bolded
canonical term. -/
def ciReplaceFirst (term : Str) (s : Str) : Str :=
  match findSubIdx (lowerS term) (lowerS s) with
  | none => s
  | some i => s.take i ++ str "**" ++ term ++ str "**" ++ s.drop (i + term.length)

/-- `key_terms` of `BlogPostTemplate._add_emphasis`. -/
def key_terms : List Str :=
  [str "malware", str "ransomware", str "phishing", str "social engineering",
   str "zero-day", str "APT", str "vulnerability", str "exploit",
   str "incident response", str "threat intelligence", str "encryption",
   str "authentication", str "authorization", str "firewall",
   str "intrusion detection", str "endpoint protection", str "SIEM"]

/-- `BlogPostTemplate._add_emphasis`. -/
def add_emphasis (text : Str) : Str :=
  key_terms.foldl (fun t term => ciReplaceFirst term t) text

/-- The per-line treatment of `_enhance_content_formatting`: emphasis, then
bullet normalization. -/
def enhanceLine (line : Str) : Str :=
  let line := add_emphasis line
  if startsW (str "-") line ∨ startsW (str "•") line then
    str "- " ++ stripS (line.drop 1)
  else line

/-- `BlogPostTemplate._enhance_content_formatting`. -/
def enhance_content_formatting (content : Str) : Str :=
  joinSep (str "\n\n")
    ((((splitOnC 10 content).map stripS).filter (fun l => ¬ l = [])).map enhanceLine)

/-- `BlogPostTemplate._extract_key_points`: the first three sentences of
meaningful length, as bullets. -/
def extract_key_points (content : Str) : Str :=
  joinSep (str "\n")
    ((((splitOnC 46 content).take 3).map stripS).filterMap
      (fun s => if 20 < s.length then some (str "- " ++ s) else none))

/-- Python `round(n / d)` for exact nonnegative operands: rounding half to
even (the float division is exact at every tie, so banker's rounding on the
rational value is the float behaviour). -/
def roundHalfEven (n d : Nat) : Nat :=
  let q := n / d
  let r := n % d
  if d < 2 * r then q + 1
  else if 2 * r < d then q
  else if q % 2 = 0 then q else q + 1

/-- `len(total_content.split())`: the number of maximal non-whitespace runs. -/
def countWords (s : Str) : Nat :=
  (runsBy (fun c => ¬ isSpaceC c) s).length

/-- `BlogPostTemplate._format_header`. -/
def format_header (title : Str) (reading_time : Nat) (technical_level : Str)
    (dateLong : Str) : Str :=
  str "# " ++ title ++ str "\n\n*" ++ natToChars reading_time ++
    str " min read • " ++ titleS technical_level ++ str " Level • " ++ dateLong ++
    str "*\n\n---"

/-- `BlogPostTemplate._format_introduction`. -/
def format_introduction (topic : Str) (style : Str) : Str :=
  if style = str "narrative" then
    str "## 🎯 Introduction\n\nIn the ever-evolving world of cybersecurity, understanding **" ++
    topic ++
    str "** requires us to look beyond just the technical details. Today\u0027s cyber threats echo patterns from history, and by examining both the past and present, we can build more effective defenses for the future.\n\nThis comprehensive analysis explores " ++
    topic ++
    str " through three critical lenses: historical context, current security implications, and emerging threat intelligence. Whether you\u0027re a security professional, IT administrator, or simply interested in cybersecurity, this guide will provide you with actionable insights and practical knowledge."
  else if style = str "technical" then
    str "## Introduction\n\nThis technical analysis examines **" ++ topic ++
    str "** from multiple cybersecurity perspectives, providing comprehensive coverage of defensive strategies, threat intelligence, and historical context.\n\n### What You\u0027ll Learn\n- Current threat landscape and attack vectors\n- Defensive security measures and best practices\n- Historical parallels and lessons learned\n- Practical implementation guidance"
  else
    str "## Introduction\n\nUnderstanding **" ++ topic ++
    str "** in today\u0027s cybersecurity landscape requires a multifaceted approach. This educational guide combines technical security analysis, current threat intelligence, and historical insights to provide you with a comprehensive understanding of the topic.\n\n### Why This Matters\nIn cybersecurity, knowledge of historical patterns often illuminates current threats and helps predict future trends. By understanding how similar challenges were addressed in the past, we can develop more robust and innovative solutions for today\u0027s digital world."

/-- `BlogPostTemplate._format_table_of_contents`. -/
def format_table_of_contents : Str :=
  str "## 📑 Table of Contents\n\n1. [Historical Context](#historical-context) - Learning from the past\n2. [Current Security Landscape](#current-security-landscape) - Today\u0027s challenges\n3. [Technical Deep Dive](#technical-deep-dive) - How it works\n4. [Threat Intelligence](#threat-intelligence) - What attackers are doing\n5. [Defensive Strategies](#defensive-strategies) - How to protect yourself\n6. [Lessons from History](#lessons-from-history) - Timeless principles\n7. [Practical Applications](#practical-applications) - Implementation guide\n8. [Conclusion](#conclusion) - Key takeaways\n\n---"

/-- `BlogPostTemplate._format_historical_context`. -/
def format_historical_context (historical_content : Str) : Str :=
  str "## 🏛️ Historical Context\n\nUnderstanding the historical foundations helps us appreciate how current cybersecurity challenges evolved and what lessons we can apply from the past.\n\n" ++
  enhance_content_formatting historical_content ++
  str "\n\n### 💡 Historical Insight\nThe patterns we see in modern cybersecurity often have deep historical roots. By studying these connections, we can better understand both the motivations of attackers and the principles of effective defense."

/-- `BlogPostTemplate._format_current_landscape`. -/
def format_current_landscape (security_analysis threat_analysis : Str) : Str :=
  str "## 🌐 Current Security Landscape\n\nToday\u0027s cybersecurity environment presents both familiar challenges and entirely new threat vectors. This section examines the current state of affairs from both defensive and threat perspectives.\n\n### Security Analysis Perspective\n" ++
  enhance_content_formatting security_analysis ++
  str "\n\n### Key Trends and Observations\n" ++
  extract_key_points threat_analysis

/-- `BlogPostTemplate._format_technical_recommendations` (the `content`
argument is accepted but unused in the source: the list is fixed). -/
def format_technical_recommendations (content : Str) : Str :=
  str "1. **Implement network segmentation and zero-trust principles**\n2. **Deploy endpoint detection and response (EDR) solutions**\n3. **Establish comprehensive logging and monitoring**\n4. **Regular security assessments and penetration testing**\n5. **User security awareness training and phishing simulations**\n"

/-- `BlogPostTemplate._format_technical_deep_dive`. -/
def format_technical_deep_dive (security_analysis : Str) (technical_level : Str) : Str :=
  let complexity_note :=
    if technical_level = str "beginner" then
      str "\n*📘 **Note**: Technical concepts are explained in beginner-friendly terms.*\n"
    else if technical_level = str "advanced" then
      str "\n*🔬 **Note**: This section includes advanced technical details.*\n"
    else []
  str "## 🔧 Technical Deep Dive\n" ++ complexity_note ++
  str "\nUnderstanding the technical mechanisms behind cybersecurity threats and defenses is crucial for implementing effective protection measures.\n\n" ++
  enhance_content_formatting security_analysis ++
  str "\n\n### Technical Recommendations\n" ++
  format_technical_recommendations security_analysis

/-- `BlogPostTemplate._extract_threat_indicators` (the `threat_content`
argument is accepted but unused in the source: the text is fixed). -/
def extract_threat_indicators (threat_content : Str) : Str :=
  str "- Unusual network traffic patterns\n- Suspicious email attachments or links\n- Unexpected system behavior or performance degradation\n- Unauthorized access attempts or privilege escalation\n- Data exfiltration or unusual file access patterns"

/-- `BlogPostTemplate._format_threat_intelligence`. -/
def format_threat_intelligence (threat_analysis : Str) : Str :=
  str "## 🕵️ Threat Intelligence\n\nCurrent threat intelligence provides insights into how attackers are evolving their tactics and what organizations should be watching for.\n\n" ++
  enhance_content_formatting threat_analysis ++
  str "\n\n### 🚨 Current Threat Indicators\n" ++
  extract_threat_indicators threat_analysis

/-- The item accumulation of `_format_defensive_strategies`. -/
def strategyItems : Nat → List Str → Str
  | _, [] => []
  | i, s :: rest =>
    str "\n" ++ natToChars i ++ str ". **" ++ s ++
    str "**\n   Implementation priority: " ++
    (if i ≤ 2 then str "High" else if i ≤ 4 then str "Medium" else str "Low") ++
    strategyItems (i + 1) rest

/-- `BlogPostTemplate._format_defensive_strategies`. -/
def format_defensive_strategies (suggestions : List Str) : Str :=
  str "## 🛡️ Defensive Strategies\n\nBased on the analysis above, here are the most effective defensive strategies:" ++
  strategyItems 1 suggestions ++
  str "\n\n### Implementation Timeline\n- **Immediate (0-30 days)**: Items 1-2\n- **Short-term (1-3 months)**: Items 3-4  \n- **Long-term (3-6 months)**: Remaining items"

/-- `BlogPostTemplate._extract_historical_lessons` (the `historical_content`
argument is accepted but unused in the source: the text is fixed). -/
def extract_historical_lessons (historical_content : Str) : Str :=
  str "- **Deception remains a constant**: From ancient warfare to modern social engineering\n- **Information advantage wins conflicts**: Intelligence and reconnaissance are crucial\n- **Defense in depth works**: Multiple layers of protection are more effective than single solutions\n- **Human factors are critical**: Technology alone cannot solve security challenges\n- **Adaptation is survival**: Those who evolve their tactics survive and thrive"

/-- `BlogPostTemplate._format_lessons_learned`. -/
def format_lessons_learned (historical_analysis : Str) (additional_suggestions : List Str) : Str :=
  str "## 📚 Lessons from History\n\nHistory provides timeless lessons that remain relevant in our digital age:\n\n" ++
  extract_historical_lessons historical_analysis ++
  str "\n\n### Modern Applications\n" ++
  joinSep (str "\n") ((additional_suggestions.take 3).map (fun s => str "- " ++ s))

/-- The step accumulation of `_format_practical_applications`. -/
def practicalSteps : Nat → List Str → Str
  | _, [] => []
  | i, s :: rest =>
    str "\n### Step " ++ natToChars i ++ str ": " ++ s ++ str "\n" ++
    (if i ≤ 2 then str "🟢 **Priority**: High - Implement immediately\n"
     else if i ≤ 4 then str "🟡 **Priority**: Medium - Plan for next quarter\n"
     else str "🔵 **Priority**: Low - Long-term consideration\n") ++
    practicalSteps (i + 1) rest

/-- `BlogPostTemplate._format_practical_applications`. -/
def format_practical_applications (suggestions : List Str) : Str :=
  str "## 🛠️ Practical Applications\n\nHere\u0027s how to apply these insights in your organization:" ++
  practicalSteps 1 (suggestions.take 6) ++
  str "\n\n### Success Metrics\n- Reduced incident response time\n- Improved threat detection rates\n- Enhanced security awareness across teams\n- Better alignment with industry best practices"

/-- `BlogPostTemplate._format_conclusion`. -/
def format_conclusion (topic : Str) : Str :=
  str "## 🎯 Conclusion\n\nUnderstanding **" ++ topic ++
  str "** requires balancing historical wisdom with cutting-edge technology. The most effective cybersecurity strategies combine lessons learned from past conflicts with innovative approaches to modern threats.\n\n### Key Takeaways\n- Historical patterns provide valuable insights for modern cybersecurity\n- Effective defense requires understanding both technical and human factors\n- Continuous learning and adaptation are essential in cybersecurity\n- The most successful security programs combine multiple perspectives and approaches\n\n### Next Steps\n1. **Assess** your current security posture against the strategies discussed\n2. **Prioritize** implementation based on your organization\u0027s risk profile\n3. **Monitor** emerging threats and adapt your defenses accordingly\n4. **Share** these insights with your security team and stakeholders\n\n---\n\n*Stay vigilant, stay informed, and remember that cybersecurity is a continuous journey, not a destination.*"

/-- The technical metadata dictionary the runner builds for a blog post. -/
structure BlogMetadata where
  style : Str
  technical_depth : Str
  target_audience : Str
  content_type : Str
deriving DecidableEq, Repr

/-- The reference items of `_format_footer`. -/
def referencesItems : Nat → List Str → Str
  | _, [] => []
  | i, s :: rest =>
    natToChars i ++ str ". [" ++ s ++ str "](" ++ s ++ str ")\n" ++
    referencesItems (i + 1) rest

/-- `BlogPostTemplate._format_footer`. The runner's metadata dictionary has
no `agents_used` key, so that line joins the empty list. -/
def format_footer (sources : List Str) (metadata : BlogMetadata) (dateShort : Str) : Str :=
  let references :=
    if sources = [] then []
    else str "\n### 📖 References and Further Reading\n" ++ referencesItems 1 (sources.take 10)
  str "---\n\n## About This Analysis\n\nThis comprehensive analysis was generated using a multi-agent cybersecurity research system that combines:\n- **Security Analysis**: Defensive cybersecurity expertise\n- **Threat Intelligence**: Current threat landscape assessment  \n- **Historical Context**: Lessons from history and warfare\n\n**Technical Depth**: " ++
  metadata.technical_depth ++
  str "  \n**Target Audience**: " ++
  metadata.target_audience ++
  str "  \n**Analysis Date**: " ++ dateShort ++
  str "  \n**Agents Used**: " ++
  str "\n\n" ++ references ++
  str "\n\n---\n\n*🔒 **Disclaimer**: This content is for educational purposes only. Always consult with cybersecurity professionals for organization-specific security implementations.*"

/-- `BlogPostTemplate.format_blog_post`: reading time, ordered sections,
joined with blank lines. The two `datetime.now()` date strings are passed in
as parameters. -/
def format_blog_post (title topic security_analysis threat_analysis historical_analysis : Str)
    (suggestions sources : List Str) (metadata : BlogMetadata) (style : Str)
    (dateLong dateShort : Str) : Str :=
  let word_count := countWords (security_analysis ++ threat_analysis ++ historical_analysis)
  let reading_time := max 1 (roundHalfEven word_count 200)
  let sections :=
    [format_header title reading_time metadata.technical_depth dateLong,
     format_introduction topic style] ++
    (if 1000 < word_count then [format_table_of_contents] else []) ++
    [format_historical_context historical_analysis,
     format_current_landscape security_analysis threat_analysis,
     format_technical_deep_dive security_analysis metadata.technical_depth,
     format_threat_intelligence threat_analysis,
     format_defensive_strategies (suggestions.take 5),
     format_lessons_learned historical_analysis (suggestions.drop 5),
     format_practical_applications suggestions,
     format_conclusion topic,
     format_footer sources metadata dateShort]
  joinSep (str "\n\n") sections

/-! ## Pipeline coordinator (`src/cyber_storm/runner.py`)

The three expert units are external collaborators; each call is modelled as
an already-delivered outcome `Except Str AgentResponse` (`Except.error e`
models the call raising an exception with message `e`). `datetime.now()`
and `uuid.uuid4()` are modelled as indexed streams `clock` and `uuid`. -/

/-- `AgentResponse` dataclass (confidence is irrelevant to these claims and
kept as an opaque number). -/
structure AgentResponse where
  content : Str
  sources : List Str
  confidence : Nat
  suggestions : List Str
  metadata : KV
deriving DecidableEq, Repr

/-- `BlogPost` dataclass. -/
structure BlogPost where
  title : Str
  content : Str
  summary : Str
  tags : List Str
  sources : List Str
  metadata : BlogMetadata
  workflow_metadata : FinalizedSummary × List AgentActivityRecord
  generation_process : GenerationProcess
  agent_workflow_summary : List AgentContribution
  created_at : Str
deriving DecidableEq, Repr

/-- Python `s.split(sep)` for a general nonempty separator. -/
def splitOnS (sep : Str) : Str → List Str
  | [] => [[]]
  | c :: cs =>
    if sep ≠ [] ∧ startsW sep (c :: cs) then
      [] :: splitOnS sep (cs.drop (sep.length - 1))
    else
      match splitOnS sep cs with
      | [] => [[c]]
      | h :: t => (c :: h) :: t
termination_by s => s.length
decreasing_by
  · simp only [List.length_drop, List.length_cons]
    omega
  · simp only [List.length_cons]
    omega

/-- The keyword list of `_generate_summary`. -/
def summaryWords : List Str :=
  [str "cybersecurity", str "security", str "threat", str "historical"]

/-- `CyberStormRunner._generate_summary`. -/
def generate_summary (content : Str) : Str :=
  let sentences := (splitOnS (str ". ") content).take 10
  let keeps := sentences.filterMap (fun sentence =>
    if 50 < sentence.length ∧
        summaryWords.any (fun w => hasSub w (lowerS sentence)) then
      some (stripS sentence)
    else none)
  joinSep (str ". ") (keeps.take 3) ++ str "."

/-- `CyberStormRunner._extract_tags` (deduplication models `list(set(...))`
up to the unspecified iteration order of a Python set). -/
def extract_tags (topic content : Str) : List Str :=
  let topic_lower := lowerS topic
  let content_lower := lowerS content
  let t1 := [str "cybersecurity", str "security"]
  let t2 := t1 ++
    (if hasSub (str "ransomware") topic_lower then
      [str "ransomware", str "malware", str "encryption"] else [])
  let t3 := t2 ++
    (if hasSub (str "phishing") topic_lower then
      [str "phishing", str "social_engineering", str "email_security"] else [])
  let t4 := t3 ++
    (if hasSub (str "apt") topic_lower ∨ hasSub (str "advanced") topic_lower then
      [str "apt", str "threat_intelligence", str "attribution"] else [])
  let t5 := t4 ++
    (if hasSub (str "historical") content_lower ∨ hasSub (str "history") content_lower then
      [str "historical_analysis"] else [])
  dedupKeepFirst t5

/-- `CyberStormRunner._synthesize_blog_content` (the fallback synthesis used
when no template is available). -/
def synthesize_blog_content (topic : Str)
    (security_analysis threat_analysis historical_analysis : AgentResponse) : Str :=
  joinSep (str "\n")
    [str "# " ++ topic ++ str ": A Comprehensive Analysis\n",
     str "## Introduction\n",
     str "In the ever-evolving landscape of cybersecurity, understanding " ++ topic ++
       str " requires examining it from multiple perspectives. ",
     str "This analysis combines defensive security insights, threat intelligence, and historical context to provide a comprehensive view.\n",
     str "## Historical Context\n",
     historical_analysis.content ++ str "\n",
     str "## Security Analysis\n",
     security_analysis.content ++ str "\n",
     str "## Threat Intelligence Perspective\n",
     threat_analysis.content ++ str "\n",
     str "## Key Takeaways\n",
     str "- " ++ joinSep (str "\n- ") (security_analysis.suggestions.take 3) ++ str "\n",
     str "- " ++ joinSep (str "\n- ") (threat_analysis.suggestions.take 3) ++ str "\n",
     str "- " ++ joinSep (str "\n- ") (historical_analysis.suggestions.take 3) ++ str "\n",
     str "## Conclusion\n",
     str "Understanding " ++ topic ++
       str " requires a multi-faceted approach that combines technical knowledge, ",
     str "threat awareness, and historical perspective. By learning from the past and staying current with emerging threats, ",
     str "cybersecurity professionals can better protect their organizations and adapt to future challenges."]

/-- The `except` clause of `generate_blog_post`:
`for activity_id in tracker.current_activities: tracker.fail_activity(...)`
followed by a bare `raise`. `fail_activity` deletes the id from the
`current_activities` dict while the `for` statement is iterating over that
same dict, so in CPython the first running activity is marked failed and the
iterator then raises `RuntimeError("dictionary changed size during
iteration")`; the bare `raise` of the original error is reached only when
there is no running activity. The returned string is the message of the
exception that actually propagates. -/
def exceptHandler (tr : WorkflowTracker) (errMsg : Str) (now : Nat) :
    WorkflowTracker × Str :=
  match tr.current_activities with
  | [] => (tr, errMsg)
  | id :: _ =>
    (fail_activity tr id errMsg 0 now, str "dictionary changed size during iteration")

/-- The digest `output_data` recorded when an expert activity completes. -/
def expertOutputKV (r : AgentResponse) : KV :=
  [(str "content_length", DataVal.n r.content.length),
   (str "suggestions_count", DataVal.n r.suggestions.length)]

/-- The `input_data` snapshot for an expert activity (the context dictionary
is summarised by its topic, the only claim-relevant field). -/
def expertInputKV (topic : Str) : KV :=
  [(str "topic", DataVal.s topic)]

/-- `CyberStormRunner.generate_blog_post`. Returns the produced artifact and
the final tracker state, or the message of the propagated exception paired
with the tracker state left behind (the source discards that local tracker
when it raises; it is kept here so the ledger can be inspected).
`default_audience` and `default_technical_depth` come from the runner
configuration; `dateLong`/`dateShort`/`createdAt` are the formatted
`datetime.now()` strings used by the template and the dataclass. -/
def runGenerateBlogPost (topic style session_id : Str)
    (secRes threatRes histRes : Except Str AgentResponse)
    (template_available : Bool)
    (default_audience default_technical_depth : Str)
    (uuid clock : Nat → Nat)
    (dateLong dateShort createdAt : Str) :
    Except (Str × WorkflowTracker) (BlogPost × WorkflowTracker) :=
  let tr0 := WorkflowTracker.init session_id (clock 0)
  let st1 := start_activity tr0 (str "security_analyst") (str "SecurityAnalystAgent")
    (str "analyze_topic") (some (expertInputKV topic)) none (uuid 0) (clock 1)
  match secRes with
  | .error e =>
    let h := exceptHandler st1.1 e (clock 2)
    .error (h.2, h.1)
  | .ok security_analysis =>
    let tr2 := complete_activity st1.1 st1.2 (some (expertOutputKV security_analysis))
      (some security_analysis.sources) (clock 2)
    let st3 := start_activity tr2 (str "threat_researcher") (str "ThreatResearcherAgent")
      (str "analyze_topic") (some (expertInputKV topic)) none (uuid 1) (clock 3)
    match threatRes with
    | .error e =>
      let h := exceptHandler st3.1 e (clock 4)
      .error (h.2, h.1)
    | .ok threat_analysis =>
      let tr4 := complete_activity st3.1 st3.2 (some (expertOutputKV threat_analysis))
        (some threat_analysis.sources) (clock 4)
      let st5 := start_activity tr4 (str "historian") (str "HistorianAgent")
        (str "analyze_topic") (some (expertInputKV topic)) none (uuid 2) (clock 5)
      match histRes with
      | .error e =>
        let h := exceptHandler st5.1 e (clock 6)
        .error (h.2, h.1)
      | .ok historical_analysis =>
        let tr6 := complete_activity st5.1 st5.2 (some (expertOutputKV historical_analysis))
          (some historical_analysis.sources) (clock 6)
        let st7 := start_activity tr6 (str "content_synthesizer") (str "ContentSynthesizer")
          (str "synthesize_blog_content")
          (some [(str "style", DataVal.s style),
                 (str "template_available", DataVal.b template_available)]) none
          (uuid 3) (clock 7)
        let metadata : BlogMetadata :=
          { style := style
            technical_depth := default_technical_depth
            target_audience := default_audience
            content_type := str "blog_post" }
        let suggestions := security_analysis.suggestions ++ threat_analysis.suggestions ++
          historical_analysis.suggestions
        let dedupSources := dedupKeepFirst (security_analysis.sources ++
          threat_analysis.sources ++ historical_analysis.sources)
        let tc :=
          if template_available then
            let preliminary := format_blog_post topic topic security_analysis.content
              threat_analysis.content historical_analysis.content suggestions
              dedupSources metadata style dateLong dateShort
            let title := generate_title topic (some (preliminary.take 1000))
              (str "blog_post") 1 (str "Security Analysis")
            let content := format_blog_post title topic security_analysis.content
              threat_analysis.content historical_analysis.content suggestions
              dedupSources metadata style dateLong dateShort
            (title, content)
          else
            let content := synthesize_blog_content topic security_analysis
              threat_analysis historical_analysis
            let title := generate_title topic (some (content.take 1000))
              (str "blog_post") 1 (str "Security Analysis")
            (title, content)
        let tr8 := complete_activity st7.1 st7.2
          (some [(str "final_content_length", DataVal.n tc.2.length),
                 (str "title", DataVal.s tc.1),
                 (str "template_used", DataVal.b template_available)]) none (clock 8)
        let all_sources := dedupKeepFirst (security_analysis.sources ++
          threat_analysis.sources ++ historical_analysis.sources)
        .ok ({ title := tc.1
               content := tc.2
               summary := generate_summary tc.2
               tags := extract_tags topic tc.2
               sources := all_sources
               metadata := metadata
               workflow_metadata := get_workflow_metadata tr8 (clock 9)
               generation_process := get_generation_process tr8
               agent_workflow_summary := get_agent_contributions_summary tr8
               created_at := createdAt }, tr8)

/-! ## Tracker operation traces

Arbitrary sequences of ledger operations, for the ledger invariants. -/

/-- One call into the workflow tracker. -/
inductive TrOp
  | start (agent_name agent_type step_name : Str)
          (input_data step_metadata : Option KV) (activity_id : Nat) (now : Nat)
  | complete (activity_id : Nat) (output_data : Option KV)
             (sources : Option (List Str)) (now : Nat)
  | fail (activity_id : Nat) (error_message : Str) (retry_count : Nat) (now : Nat)

/-- Apply one tracker call. -/
def applyTrOp (tr : WorkflowTracker) : TrOp → WorkflowTracker
  | .start a b c i m id now => (start_activity tr a b c i m id now).1
  | .complete id o s now => complete_activity tr id o s now
  | .fail id e r now => fail_activity tr id e r now

/-- Run a sequence of tracker calls from a freshly initialized tracker. -/
def runTrOps (session_id : Str) (t0 : Nat) (ops : List TrOp) : WorkflowTracker :=
  ops.foldl applyTrOp (WorkflowTracker.init session_id t0)

/-! ## Job manager (`src/api/services/database_service.py` and
`src/api/routers/research.py`) -/

/-- `ResearchStatus` enum. -/
inductive ResearchStatus
  | pending
  | initializing
  | researching
  | analyzing
  | generating
  | completed
  | failed
deriving DecidableEq, Repr

/-- A `research_sessions` row (the claim-relevant columns). -/
structure ResearchSession where
  session_id : Str
  topic : Str
  status : ResearchStatus
  progress_percentage : Nat
  current_step : Str
  error_message : Option Str
  created_at : Nat
  updated_at : Nat
deriving DecidableEq, Repr

/-- A `research_results` row (the claim-relevant columns). -/
structure ResearchResultRec where
  result_id : Str
  session_id : Str
  title : Str
  content : Str
  sources : List Str
  created_at : Nat
deriving DecidableEq, Repr

/-- The persistent store: a session table and a result table. -/
structure ApiDb where
  sessions : List ResearchSession
  results : List ResearchResultRec
deriving DecidableEq, Repr

/-- `db.query(ResearchSession).filter(session_id == sid).first()`. -/
def findSession (sessions : List ResearchSession) (sid : Str) : Option ResearchSession :=
  sessions.find? (fun s => decide (s.session_id = sid))

/-- Replace the first row with the given session id. -/
def replaceFirstSession (sid : Str) (s2 : ResearchSession) :
    List ResearchSession → List ResearchSession
  | [] => []
  | s :: rest =>
    if s.session_id = sid then s2 :: rest
    else s :: replaceFirstSession sid s2 rest

/-- `DatabaseService.update_research_session_status`: look the session up by
id; if absent return `None` and leave the table unchanged; otherwise set
status, progress, current step, error message and `updated_at`
unconditionally and commit. Returns the refreshed row and the new table. -/
def update_research_session_status (sessions : List ResearchSession) (session_id : Str)
    (status : ResearchStatus) (progress_percentage : Nat) (current_step : Str)
    (error_message : Option Str) (now : Nat) :
    Option ResearchSession × List ResearchSession :=
  match findSession sessions session_id with
  | none => (none, sessions)
  | some s =>
    let s2 := { s with
      status := status
      progress_percentage := progress_percentage
      current_step := current_step
      error_message := error_message
      updated_at := now }
    (some s2, replaceFirstSession session_id s2 sessions)

/-- Stable insertion into a result list sorted by descending `created_at`
(`order_by(desc(ResearchResult.created_at))`). -/
def insertResultDesc (r : ResearchResultRec) :
    List ResearchResultRec → List ResearchResultRec
  | [] => [r]
  | h :: t =>
    if h.created_at < r.created_at then r :: h :: t
    else h :: insertResultDesc r t

/-- Stable sort by descending `created_at`. -/
def sortResultsDesc : List ResearchResultRec → List ResearchResultRec
  | [] => []
  | h :: t => insertResultDesc h (sortResultsDesc t)

/-- `DatabaseService.get_research_results_by_session`. -/
def get_research_results_by_session (db : ApiDb) (session_id : Str) :
    List ResearchResultRec :=
  sortResultsDesc (db.results.filter (fun r => decide (r.session_id = session_id)))

/-- The `GET /research/(session_id)/result` endpoint
(`get_research_result` in `research.py`): 404 when the session does not
exist, otherwise the session's stored results — whatever the session's
status is, with no readiness check. Errors are HTTP status codes. -/
def get_research_result (db : ApiDb) (session_id : Str) :
    Except Nat (List ResearchResultRec) :=
  match findSession db.sessions session_id with
  | none => Except.error 404
  | some _ => Except.ok (get_research_results_by_session db session_id)

/-- One call to `update_session_progress` / `update_research_session_status`
made by the background research task. -/
structure StatusUpdate where
  status : ResearchStatus
  progress : Nat
  step : Str
  error_message : Option Str
deriving DecidableEq, Repr

/-- The sequence of status updates `run_research_task` issues for a
`blog_post` job, given the outcome of the runner call
(`runner_service.generate_blog_post`, which first reports
`RESEARCHING`/30 and, on success, `GENERATING`/80) and the outcome of
saving the result (`none` = saved, `some e` = the save raised `e`). -/
def run_research_task_updates (runnerResult : Except Str Unit)
    (saveResult : Option Str) : List StatusUpdate :=
  [{ status := .initializing, progress := 10,
     step := str "Initializing research agents...", error_message := none }] ++
  [{ status := .researching, progress := 30,
     step := str "Security analysis in progress...", error_message := none }] ++
  match runnerResult with
  | .error e =>
    [{ status := .failed, progress := 0,
       step := str "Research task failed", error_message := some e }]
  | .ok _ =>
    [{ status := .generating, progress := 80,
       step := str "Formatting blog post...", error_message := none }] ++
    match saveResult with
    | none =>
      [{ status := .completed, progress := 100,
         step := str "Research completed successfully", error_message := none }]
    | some e =>
      [{ status := .failed, progress := 0,
         step := str "Failed to save research result", error_message := some e }]

/-- Is a job status terminal? -/
def isTerminal (s : ResearchStatus) : Bool :=
  s = ResearchStatus.completed ∨ s = ResearchStatus.failed

/-- Apply one status update to the session table (what
`update_session_progress` persists; the time stamp is irrelevant here). -/
def applyStatusUpdate (sessions : List ResearchSession) (sid : Str)
    (u : StatusUpdate) : List ResearchSession :=
  (update_research_session_status sessions sid u.status u.progress u.step
    u.error_message 0).2

/-! ## Progress fan-out (`websocket_connections` in `src/api/routers/research.py`) -/

/-- The module-level dict `websocket_connections: Dict[str, WebSocket]`,
as an insertion-ordered association list with unique keys; connections are
opaque numbers. -/
abbrev WsRegistry := List (Str × Nat)

/-- Dict assignment `websocket_connections[session_id] = websocket`:
overwrite the value at an existing key in place, else append. -/
def wsAssign (sid : Str) (c : Nat) : WsRegistry → WsRegistry
  | [] => [(sid, c)]
  | (k, v) :: rest =>
    if k = sid then (k, c) :: rest
    else (k, v) :: wsAssign sid c rest

/-- `if session_id in websocket_connections: del websocket_connections[session_id]`. -/
def wsRemove (sid : Str) : WsRegistry → WsRegistry
  | [] => []
  | (k, v) :: rest =>
    if k = sid then rest
    else (k, v) :: wsRemove sid rest

/-- Dict lookup. -/
def wsFind (reg : WsRegistry) (sid : Str) : Option Nat :=
  match reg.find? (fun kv => decide (kv.1 = sid)) with
  | some kv => some kv.2
  | none => none

/-- One registry-affecting event: a websocket endpoint registering itself, the
endpoint's `finally` cleanup, a failed send (`send_websocket_update` removing
the connection), or session deletion closing the channel. -/
inductive WsOp
  | connect (sid : Str) (c : Nat)
  | disconnect (sid : Str)
  | sendFailure (sid : Str)
  | deleteSession (sid : Str)

/-- Apply one registry event. -/
def applyWsOp (reg : WsRegistry) : WsOp → WsRegistry
  | .connect sid c => wsAssign sid c reg
  | .disconnect sid => wsRemove sid reg
  | .sendFailure sid => wsRemove sid reg
  | .deleteSession sid => wsRemove sid reg

/-- Run a sequence of registry events from the empty module-level dict. -/
def runWsOps (ops : List WsOp) : WsRegistry :=
  ops.foldl applyWsOp []

/-- The observers `send_websocket_update` delivers one event to. -/
def wsDeliver (reg : WsRegistry) (sid : Str) : List Nat :=
  match wsFind reg sid with
  | some c => [c]
  | none => []

/-! ## Further definitions used by the verification statements -/

/-- A lower-case ASCII letter. -/
def isLowerAlpha (c : Nat) : Bool := 97 ≤ c ∧ c ≤ 122

/-- The text contains no underscore (code point 95). -/
abbrev noU (s : Str) : Prop := 95 ∉ s

/-- The record the `current_activities` dict references for an id: the last
record in the list with that `activity_id`. -/
def lookupLastRec (id : Nat) (l : List AgentActivityRecord) : Option AgentActivityRecord :=
  l.reverse.find? (fun a => decide (a.activity_id = id))

/-- The activity ids consumed by the `start` calls of a trace, in order. -/
def startIds : List TrOp → List Nat
  | [] => []
  | .start _ _ _ _ _ id _ :: rest => id :: startIds rest
  | .complete _ _ _ _ :: rest => startIds rest
  | .fail _ _ _ _ :: rest => startIds rest

/-- The ledger's internal field names and step labels that must never leak
into an artifact's `content` (each contains an underscore). -/
def forbiddenTokens : List Str :=
  [str "activity_id", str "session_id", str "agent_name", str "agent_type",
   str "step_name", str "step_order", str "input_data", str "output_data",
   str "start_time", str "end_time", str "duration_seconds", str "error_message",
   str "retry_count", str "step_metadata", str "workflow_summary",
   str "agent_activities", str "agents_used", str "total_steps",
   str "completed_steps", str "failed_steps", str "analyze_topic",
   str "synthesize_blog_content"]

/-- The `content` of a successful `generate_blog_post` outcome. -/
def okContent : Except (Str × WorkflowTracker) (BlogPost × WorkflowTracker) → Option Str
  | .ok (bp, _) => some bp.content
  | .error _ => none

/-- The message of the exception a failed `generate_blog_post` propagates. -/
def errMsgOf : Except (Str × WorkflowTracker) (BlogPost × WorkflowTracker) → Option Str
  | .ok _ => none
  | .error (e, _) => some e

/-- The tracker state a failed `generate_blog_post` leaves behind. -/
def errTrackerOf : Except (Str × WorkflowTracker) (BlogPost × WorkflowTracker) →
    Option WorkflowTracker
  | .ok _ => none
  | .error (_, tr) => some tr

/-- A sample completed job row: topic "Ransomware", progress 100. -/
def c1rec : ResearchSession where
  session_id := str "s1"
  topic := str "Ransomware"
  status := ResearchStatus.completed
  progress_percentage := 100
  current_step := str "Research completed successfully"
  error_message := none
  created_at := 0
  updated_at := 50

/-- A session table holding only the terminal job `c1rec`. -/
def c1db : List ResearchSession := [c1rec]

/-- A job that is still `researching`. -/
def c4rec : ResearchSession where
  session_id := str "s1"
  topic := str "Ransomware"
  status := ResearchStatus.researching
  progress_percentage := 30
  current_step := str "Security analysis in progress..."
  error_message := none
  created_at := 0
  updated_at := 10

/-- A store holding one job that is still `researching` and has no results. -/
def c4db : ApiDb where
  sessions := [c4rec]
  results := []

/-- A benign expert response used in concrete runs. -/
def sampleResponse : AgentResponse where
  content := str "Attackers encrypt data and demand payment. Defense requires layered security controls and working backups."
  sources := [str "https://example.com/a"]
  confidence := 9
  suggestions := [str "Keep offline backups", str "Patch systems promptly"]
  metadata := []

/-- A `generate_blog_post` run in which the security-analyst expert raises
`Exception("expert boom")` (the other experts would have succeeded). -/
def c3run : Except (Str × WorkflowTracker) (BlogPost × WorkflowTracker) :=
  runGenerateBlogPost (str "Ransomware") (str "educational") (str "s")
    (Except.error (str "expert boom")) (Except.ok sampleResponse)
    (Except.ok sampleResponse) true
    (str "cybersecurity_professionals") (str "intermediate")
    (fun k => k) (fun k => k)
    (str "June 01, 2025") (str "2025-06-01") (str "2025-06-01T00:00:00")

/-- The degenerate topic of the title-optimizer counterexample: a 40-letter
word followed by a 25-letter word. -/
def c9topic : Str :=
  str "aaaaaaaaaaaaaaaaaaaaaaaaaaaaaaaaaaaaaaaa bbbbbbbbbbbbbbbbbbbbbbbbb"

/-- The title/content pair computed by the synthesis phase of
`generate_blog_post` (the `tc` computation of `runGenerateBlogPost`,
abstracted over exactly its inputs: topic, style, the three expert outputs,
template availability, the configured audience and depth, and the two
formatted date strings — and nothing of the tracker). -/
def blogTitleContent (topic style : Str) (security_analysis threat_analysis
    historical_analysis : AgentResponse) (template_available : Bool)
    (default_audience default_technical_depth : Str)
    (dateLong dateShort : Str) : Str × Str :=
  let metadata : BlogMetadata :=
    { style := style
      technical_depth := default_technical_depth
      target_audience := default_audience
      content_type := str "blog_post" }
  let suggestions := security_analysis.suggestions ++ threat_analysis.suggestions ++
    historical_analysis.suggestions
  let dedupSources := dedupKeepFirst (security_analysis.sources ++
    threat_analysis.sources ++ historical_analysis.sources)
  if template_available then
    let preliminary := format_blog_post topic topic security_analysis.content
      threat_analysis.content historical_analysis.content suggestions
      dedupSources metadata style dateLong dateShort
    let title := generate_title topic (some (preliminary.take 1000))
      (str "blog_post") 1 (str "Security Analysis")
    let content := format_blog_post title topic security_analysis.content
      threat_analysis.content historical_analysis.content suggestions
      dedupSources metadata style dateLong dateShort
    (title, content)
  else
    let content := synthesize_blog_content topic security_analysis
      threat_analysis historical_analysis
    let title := generate_title topic (some (content.take 1000))
      (str "blog_post") 1 (str "Security Analysis")
    (title, content)

/-- The `content` field of the artifact, as a function of the non-ledger
inputs only. -/
def blogContentOf (topic style : Str) (sec threat hist : AgentResponse)
    (template_available : Bool) (default_audience default_technical_depth : Str)
    (dateLong dateShort : Str) : Str :=
  (blogTitleContent topic style sec threat hist template_available
    default_audience default_technical_depth dateLong dateShort).2

/-! # Lemmas -/

theorem findSession_id (sessions : List ResearchSession) (sid : Str)
    (s : ResearchSession) (h : findSession sessions sid = some s) :
    s.session_id = sid := by
  have := List.find?_some h
  simpa using this

theorem findSession_replaceFirst (sessions : List ResearchSession) (sid : Str)
    (s s2 : ResearchSession) (h : findSession sessions sid = some s)
    (h2 : s2.session_id = sid) :
    findSession (replaceFirstSession sid s2 sessions) sid = some s2 := by
  induction sessions with
  | nil => simp [findSession] at h
  | cons hd tl ih =>
    by_cases hh : hd.session_id = sid
    · simp [replaceFirstSession, hh, findSession, List.find?, h2]
    · simp only [findSession, List.find?] at h
      rw [decide_eq_false hh] at h
      simp only [replaceFirstSession, if_neg hh, findSession, List.find?,
        decide_eq_false hh]
      exact ih h

/-! # Claim C1 -/

/-- C1: the claim as stated is false on the code — `c1rec` has reached
`Completed`, yet a further call to `update_research_session_status` changes
its status, progress and current step. -/
theorem C1_counterexample :
    c1rec.status = ResearchStatus.completed ∧
    ((update_research_session_status c1db (str "s1") ResearchStatus.researching 50
        (str "running again") none 60).2.map
      (fun s => (s.status, s.progress_percentage, s.current_step))) =
      [(ResearchStatus.researching, 50, str "running again")] := by
  constructor
  · rfl
  · rfl

/-- C1 (amended): `update_research_session_status` applies the requested
status, progress and step to an existing job unconditionally — also when the
job is already terminal. The Job Manager does not enforce terminal-state
immutability. -/
theorem C1_update_mutates_terminal (sessions : List ResearchSession) (sid : Str)
    (st : ResearchStatus) (p : Nat) (cs : Str) (err : Option Str) (now : Nat)
    (s : ResearchSession) (hs : findSession sessions sid = some s)
    (hterm : isTerminal s.status = true) :
    findSession (update_research_session_status sessions sid st p cs err now).2 sid =
      some { s with status := st, progress_percentage := p, current_step := cs,
                    error_message := err, updated_at := now } := by
  unfold update_research_session_status
  rw [hs]
  exact findSession_replaceFirst sessions sid s _ hs (findSession_id sessions sid s hs)

/-- Witness for C1: the amended theorem applied to the concrete store
holding the completed job `c1rec`. -/
theorem C1_update_mutates_terminal_witness :
    findSession c1db (str "s1") = some c1rec ∧
    isTerminal c1rec.status = true ∧
    findSession (update_research_session_status c1db (str "s1")
        ResearchStatus.researching 50 (str "running again") none 60).2 (str "s1") =
      some { c1rec with status := ResearchStatus.researching, progress_percentage := 50,
                        current_step := str "running again", error_message := none,
                        updated_at := 60 } :=
  ⟨by decide, by decide,
   C1_update_mutates_terminal c1db (str "s1") ResearchStatus.researching 50
     (str "running again") none 60 c1rec (by decide) (by decide)⟩

/-! # Claim C4 -/

/-- C4: the claim as stated is false on the code — the store `c4db` holds a
job that exists and is not `Completed` (it is `researching`), yet the result
query succeeds with a payload (the empty result list) instead of failing
with NotReady. -/
theorem C4_counterexample :
    c4rec.status ≠ ResearchStatus.completed ∧
    get_research_result c4db (str "s1") = Except.ok [] := by
  constructor
  · decide
  · rfl

/-- C4 (amended): the result query fails with 404 NotFound when no session
with the id exists; otherwise it returns the stored result list for the
session — including when the status is not `Completed`: there is no
NotReady check. -/
theorem C4_result_query (db : ApiDb) (sid : Str) :
    (findSession db.sessions sid = none →
      get_research_result db sid = Except.error 404) ∧
    (∀ s, findSession db.sessions sid = some s →
      s.status ≠ ResearchStatus.completed →
      get_research_result db sid =
        Except.ok (get_research_results_by_session db sid)) := by
  constructor
  · intro h
    unfold get_research_result
    rw [h]
  · intro s h _
    unfold get_research_result
    rw [h]

/-- Witness for C4: the amended theorem applied to the store `c4db`, whose
only job is still `researching`. -/
theorem C4_result_query_witness :
    findSession c4db.sessions (str "s1") = some c4rec ∧
    get_research_result c4db (str "s1") =
      Except.ok (get_research_results_by_session c4db (str "s1")) :=
  ⟨by decide,
   (C4_result_query c4db (str "s1")).2 c4rec (by decide) (by decide)⟩

/-! # Claim C2 -/

/-- C2: the claim as stated is false on the code — when the runner call
raises after progress has reached 30, the transition to `Failed` does not
leave progress at 30: `run_research_task` passes progress 0 with the
`FAILED` update, and the update is stored verbatim. -/
theorem C2_counterexample :
    ((run_research_task_updates (Except.error (str "boom")) none).map
        (fun u => (u.status, u.progress)) =
      [(ResearchStatus.initializing, 10), (ResearchStatus.researching, 30),
       (ResearchStatus.failed, 0)]) ∧
    ((run_research_task_updates (Except.error (str "boom")) none).foldl
        (fun db u => applyStatusUpdate db (str "s1") u) c1db).map
      (fun s => s.progress_percentage) ≠ [30] := by
  constructor
  · rfl
  · decide

/-- C2 (amended): for every outcome of the blog research task, a `Completed`
update carries progress exactly 100, a `Failed` update carries progress 0
(progress is reset, not frozen at its last value), and the progress values
of the non-terminal prefix are non-decreasing. -/
theorem C2_progress_policy (runnerResult : Except Str Unit) (saveResult : Option Str) :
    (∀ u ∈ run_research_task_updates runnerResult saveResult,
        u.status = ResearchStatus.completed → u.progress = 100) ∧
    (∀ u ∈ run_research_task_updates runnerResult saveResult,
        u.status = ResearchStatus.failed → u.progress = 0) ∧
    List.Chain' (fun a b => a.progress ≤ b.progress)
      ((run_research_task_updates runnerResult saveResult).takeWhile
        (fun u => ¬ isTerminal u.status)) := by
  rcases runnerResult with e | u <;> rcases saveResult with _ | e2 <;>
    simp +decide [run_research_task_updates, isTerminal, List.takeWhile]

/-- Witness for C2: the policy theorem applied to the fully successful
outcome, specialised to its `Completed` update. -/
theorem C2_progress_policy_witness :
    (({ status := ResearchStatus.completed, progress := 100,
        step := str "Research completed successfully", error_message := none } :
      StatusUpdate) ∈ run_research_task_updates (Except.ok ()) none) ∧
    ({ status := ResearchStatus.completed, progress := 100,
       step := str "Research completed successfully", error_message := none } :
      StatusUpdate).progress = 100 :=
  ⟨by decide,
   (C2_progress_policy (Except.ok ()) none).1 _ (by decide) (by decide)⟩

/-! # Lemmas for the fan-out registry -/

theorem wsAssign_keys_mem (sid : Str) (c : Nat) (reg : WsRegistry)
    (h : sid ∈ reg.map Prod.fst) :
    (wsAssign sid c reg).map Prod.fst = reg.map Prod.fst := by
  induction reg with
  | nil => simp at h
  | cons kv rest ih =>
    by_cases hk : kv.1 = sid
    · simp [wsAssign, hk]
    · simp only [List.map_cons, List.mem_cons] at h
      rcases h with h | h


      · exact absurd h.symm hk
      · simp [wsAssign, hk, ih h]

theorem wsAssign_keys_not_mem (sid : Str) (c : Nat) (reg : WsRegistry)
    (h : sid ∉ reg.map Prod.fst) :
    (wsAssign sid c reg).map Prod.fst = reg.map Prod.fst ++ [sid] := by
  induction reg with
  | nil => simp [wsAssign]
  | cons kv rest ih =>
    simp only [List.map_cons, List.mem_cons] at h
    push_neg at h
    have hk : ¬ kv.1 = sid := fun hh => h.1 hh.symm
    simp [wsAssign, hk, ih h.2]

theorem wsAssign_nodup (sid : Str) (c : Nat) (reg : WsRegistry)
    (h : (reg.map Prod.fst).Nodup) :
    ((wsAssign sid c reg).map Prod.fst).Nodup := by
  by_cases hm : sid ∈ reg.map Prod.fst
  · rw [wsAssign_keys_mem sid c reg hm]
    exact h
  · rw [wsAssign_keys_not_mem sid c reg hm]
    simp [List.nodup_append, h, hm]

theorem wsRemove_keys_sublist (sid : Str) (reg : WsRegistry) :
    ((wsRemove sid reg).map Prod.fst).Sublist (reg.map Prod.fst) := by
  induction reg with
  | nil => simp [wsRemove]
  | cons kv rest ih =>
    by_cases hk : kv.1 = sid
    · simp only [wsRemove, if_pos hk, List.map_cons]
      exact List.Sublist.cons _ (List.Sublist.refl _)
    · simp only [wsRemove, if_neg hk, List.map_cons]
      exact List.Sublist.cons₂ _ ih

theorem applyWsOp_nodup (reg : WsRegistry) (op : WsOp)
    (h : (reg.map Prod.fst).Nodup) :
    ((applyWsOp reg op).map Prod.fst).Nodup := by
  cases op with
  | connect sid c => exact wsAssign_nodup sid c reg h
  | disconnect sid => exact (wsRemove_keys_sublist sid reg).nodup h
  | sendFailure sid => exact (wsRemove_keys_sublist sid reg).nodup h
  | deleteSession sid => exact (wsRemove_keys_sublist sid reg).nodup h

theorem foldl_applyWsOp_nodup (ops : List WsOp) (reg : WsRegistry)
    (h : (reg.map Prod.fst).Nodup) :
    ((ops.foldl applyWsOp reg).map Prod.fst).Nodup := by
  induction ops generalizing reg with
  | nil => exact h
  | cons op rest ih => exact ih (applyWsOp reg op) (applyWsOp_nodup reg op h)

theorem wsAssign_find (sid : Str) (c : Nat) (reg : WsRegistry) :
    wsFind (wsAssign sid c reg) sid = some c := by
  induction reg with
  | nil => simp [wsAssign, wsFind, List.find?]
  | cons kv rest ih =>
    by_cases hk : kv.1 = sid
    · simp [wsAssign, hk, wsFind, List.find?]
    · simp only [wsAssign, if_neg hk]
      simp only [wsFind, List.find?, decide_eq_false hk] at ih ⊢
      exact ih

theorem wsAssign_length_mem (sid : Str) (c : Nat) (reg : WsRegistry)
    (h : sid ∈ reg.map Prod.fst) :
    (wsAssign sid c reg).length = reg.length := by
  induction reg with
  | nil => simp at h
  | cons kv rest ih =>
    by_cases hk : kv.1 = sid
    · simp [wsAssign, hk]
    · simp only [List.map_cons, List.mem_cons] at h
      rcases h with h | h
      · exact absurd h.symm hk
      · simp [wsAssign, hk, ih h]

/-! # Claim C10 -/

/-- C10: the fan-out registry holds at most one connection per job id. Along
every event trace from the empty module-level dict: the keys are pairwise
distinct; registering a connection for a job id makes it the job's (unique)
connection; registering for an id already present leaves the registry size
unchanged (the old connection is overwritten, not kept alongside); and every
published event is delivered to at most one observer. -/
theorem C10_single_observer_per_job (ops : List WsOp) :
    ((runWsOps ops).map Prod.fst).Nodup ∧
    (∀ sid c, wsFind (runWsOps (ops ++ [WsOp.connect sid c])) sid = some c) ∧
    (∀ sid c, sid ∈ (runWsOps ops).map Prod.fst →
      (runWsOps (ops ++ [WsOp.connect sid c])).length = (runWsOps ops).length) ∧
    (∀ sid, (wsDeliver (runWsOps ops) sid).length ≤ 1) := by
  refine ⟨foldl_applyWsOp_nodup ops [] (by simp), ?_, ?_, ?_⟩
  · intro sid c
    unfold runWsOps
    rw [List.foldl_append]
    exact wsAssign_find sid c _
  · intro sid c hm
    unfold runWsOps
    rw [List.foldl_append]
    exact wsAssign_length_mem sid c _ hm
  · intro sid
    unfold wsDeliver
    cases wsFind (runWsOps ops) sid <;> simp

/-- Witness for C10: the theorem applied to a concrete trace in which the
same job id registers twice. -/
theorem C10_single_observer_per_job_witness :
    ((str "j1") ∈ (runWsOps [WsOp.connect (str "j1") 1]).map Prod.fst) ∧
    (runWsOps ([WsOp.connect (str "j1") 1] ++ [WsOp.connect (str "j1") 2])).length =
      (runWsOps [WsOp.connect (str "j1") 1]).length :=
  ⟨by decide,
   (C10_single_observer_per_job [WsOp.connect (str "j1") 1]).2.2.1 (str "j1") 2
     (by decide)⟩

/-! # Lemmas for the ledger -/

theorem length_updateFirstRecord (id : Nat) (f : AgentActivityRecord → AgentActivityRecord)
    (l : List AgentActivityRecord) :
    (updateFirstRecord id f l).length = l.length := by
  induction l with
  | nil => rfl
  | cons r rest ih =>
    by_cases h : r.activity_id = id
    · simp [updateFirstRecord, h]
    · simp [updateFirstRecord, h, ih]

theorem map_updateFirstRecord {β : Type} (g : AgentActivityRecord → β) (id : Nat)
    (f : AgentActivityRecord → AgentActivityRecord)
    (hf : ∀ a, g (f a) = g a) (l : List AgentActivityRecord) :
    (updateFirstRecord id f l).map g = l.map g := by
  induction l with
  | nil => rfl
  | cons r rest ih =>
    by_cases h : r.activity_id = id
    · simp [updateFirstRecord, h, hf]
    · simp [updateFirstRecord, h, ih]

theorem map_updateLastRecord {β : Type} (g : AgentActivityRecord → β) (id : Nat)
    (f : AgentActivityRecord → AgentActivityRecord)
    (hf : ∀ a, g (f a) = g a) (l : List AgentActivityRecord) :
    (updateLastRecord id f l).map g = l.map g := by
  unfold updateLastRecord
  rw [List.map_reverse, map_updateFirstRecord g id f hf, ← List.map_reverse,
    List.reverse_reverse]

theorem completeRecord_step_order (o : Option KV) (s : Option (List Str)) (n : Nat)
    (a : AgentActivityRecord) :
    (completeRecord o s n a).step_order = a.step_order := by
  cases h : a.start_time <;> simp [completeRecord, h]

theorem failRecord_step_order (e : Str) (r : Nat) (n : Nat)
    (a : AgentActivityRecord) :
    (failRecord e r n a).step_order = a.step_order := by
  cases h : a.start_time <;> simp [failRecord, h]

/-- The ledger-ordering invariant: step orders are `1, 2, …, n` in insertion
order, and the counter equals the number of recorded activities. -/
def LedgerInv (tr : WorkflowTracker) : Prop :=
  tr.activities.map AgentActivityRecord.step_order =
    List.range' 1 tr.activities.length ∧
  tr.step_counter = tr.activities.length

theorem ledgerInv_applyTrOp (tr : WorkflowTracker) (op : TrOp)
    (h : LedgerInv tr) : LedgerInv (applyTrOp tr op) := by
  obtain ⟨h1, h2⟩ := h
  cases op with
  | start a b c i m id now =>
    constructor
    · simp only [applyTrOp, start_activity, List.map_append, List.length_append,
        List.map_cons, List.map_nil, List.length_cons, List.length_nil]
      rw [h1, h2]
      have hr := @List.range'_concat 1 1 (tr.activities.length)
      simp only [Nat.one_mul] at hr
      rw [hr]
      simp [Nat.add_comm]
    · simp [applyTrOp, start_activity, h2]
  | complete id o s now =>
    simp only [applyTrOp, complete_activity]
    by_cases hm : id ∈ tr.current_activities
    · rw [if_pos hm]
      refine ⟨?_, ?_⟩
      · simp only []
        rw [map_updateLastRecord _ id _ (completeRecord_step_order o s now) tr.activities]
        unfold updateLastRecord
        rw [List.length_reverse, length_updateFirstRecord, List.length_reverse]
        exact h1
      · simp only []
        unfold updateLastRecord
        rw [List.length_reverse, length_updateFirstRecord, List.length_reverse]
        exact h2
    · rw [if_neg hm]
      exact ⟨h1, h2⟩
  | fail id e r now =>
    simp only [applyTrOp, fail_activity]
    by_cases hm : id ∈ tr.current_activities
    · rw [if_pos hm]
      refine ⟨?_, ?_⟩
      · simp only []
        rw [map_updateLastRecord _ id _ (failRecord_step_order e r now) tr.activities]
        unfold updateLastRecord
        rw [List.length_reverse, length_updateFirstRecord, List.length_reverse]
        exact h1
      · simp only []
        unfold updateLastRecord
        rw [List.length_reverse, length_updateFirstRecord, List.length_reverse]
        exact h2
    · rw [if_neg hm]
      exact ⟨h1, h2⟩

theorem ledgerInv_runTrOps (session_id : Str) (t0 : Nat) (ops : List TrOp) :
    LedgerInv (runTrOps session_id t0 ops) := by
  have base : LedgerInv (WorkflowTracker.init session_id t0) := by
    constructor <;> rfl
  unfold runTrOps
  induction ops generalizing t0 with
  | nil => exact base
  | cons op rest ih =>
    rw [List.foldl_cons]
    have : ∀ tr, LedgerInv tr → LedgerInv (rest.foldl applyTrOp tr) := by
      clear ih base
      intro tr htr
      induction rest generalizing tr with
      | nil => exact htr
      | cons o2 r2 ih2 =>
        rw [List.foldl_cons]
        exact ih2 _ (ledgerInv_applyTrOp tr o2 htr)
    exact this _ (ledgerInv_applyTrOp _ op base)

/-! # Claim C7 -/

/-- C7: along every sequence of ledger operations, the recorded activities'
`step_order` values are exactly `1, 2, …, n` in insertion order (the n-th
started activity has step order n, strictly increasing and contiguous), and
every `start_activity` call appends a record created in status `Running`
carrying the next counter value. -/
theorem C7_step_order_contiguous (session_id : Str) (t0 : Nat) (ops : List TrOp) :
    ((runTrOps session_id t0 ops).activities.map AgentActivityRecord.step_order =
      List.range' 1 (runTrOps session_id t0 ops).activities.length) ∧
    (∀ (tr : WorkflowTracker) (a b c : Str) (i m : Option KV) (id now : Nat),
      ∃ rec, ((start_activity tr a b c i m id now).1).activities =
          tr.activities ++ [rec] ∧
        rec.status = ActivityStatus.running ∧
        rec.step_order = tr.step_counter + 1) := by
  refine ⟨(ledgerInv_runTrOps session_id t0 ops).1, ?_⟩
  intro tr a b c i m id now
  exact ⟨_, rfl, rfl, rfl⟩

/-! # Lemmas for claim C8 -/

theorem completeRecord_activity_id (o : Option KV) (s : Option (List Str)) (n : Nat)
    (a : AgentActivityRecord) :
    (completeRecord o s n a).activity_id = a.activity_id := by
  cases h : a.start_time <;> simp [completeRecord, h]

theorem failRecord_activity_id (e : Str) (r : Nat) (n : Nat)
    (a : AgentActivityRecord) :
    (failRecord e r n a).activity_id = a.activity_id := by
  cases h : a.start_time <;> simp [failRecord, h]

theorem lookupLastRec_spec (id : Nat) (l : List AgentActivityRecord)
    (r : AgentActivityRecord) (h : lookupLastRec id l = some r) :
    r ∈ l ∧ r.activity_id = id := by
  unfold lookupLastRec at h
  constructor
  · have := List.mem_of_find?_eq_some h
    exact List.mem_reverse.mp this
  · have := List.find?_some h
    simpa using this

theorem lookupLast_append_ne (id : Nat) (a : AgentActivityRecord)
    (l : List AgentActivityRecord) (ha : ¬ a.activity_id = id) :
    lookupLastRec id (l ++ [a]) = lookupLastRec id l := by
  unfold lookupLastRec
  rw [List.reverse_append]
  simp [List.find?, ha]

theorem lookupLast_append_self (id : Nat) (a : AgentActivityRecord)
    (l : List AgentActivityRecord) (ha : a.activity_id = id) :
    lookupLastRec id (l ++ [a]) = some a := by
  unfold lookupLastRec
  rw [List.reverse_append]
  simp [List.find?, ha]

theorem find_updateFirst_eq (id : Nat) (f : AgentActivityRecord → AgentActivityRecord)
    (hid : ∀ a, (f a).activity_id = a.activity_id)
    (lr : List AgentActivityRecord) (r : AgentActivityRecord)
    (h : lr.find? (fun a => decide (a.activity_id = id)) = some r) :
    (updateFirstRecord id f lr).find? (fun a => decide (a.activity_id = id)) =
      some (f r) := by
  induction lr with
  | nil => simp [List.find?] at h
  | cons a rest ih =>
    by_cases ha : a.activity_id = id
    · simp only [List.find?, decide_eq_true ha, Option.some.injEq] at h
      subst h
      simp [updateFirstRecord, ha, List.find?, hid]
    · simp only [List.find?, decide_eq_false ha] at h
      simp only [updateFirstRecord, if_neg ha, List.find?, decide_eq_false ha]
      exact ih h

theorem find_updateFirst_ne (id id2 : Nat)
    (f : AgentActivityRecord → AgentActivityRecord)
    (hid : ∀ a, (f a).activity_id = a.activity_id)
    (hne : ¬ id2 = id) (lr : List AgentActivityRecord) :
    (updateFirstRecord id f lr).find? (fun a => decide (a.activity_id = id2)) =
      lr.find? (fun a => decide (a.activity_id = id2)) := by
  induction lr with
  | nil => rfl
  | cons a rest ih =>
    by_cases ha : a.activity_id = id
    · have hfa : ¬ (f a).activity_id = id2 := by
        rw [hid a, ha]
        intro hh
        exact hne hh.symm
      have haa : ¬ a.activity_id = id2 := by
        rw [ha]
        intro hh
        exact hne hh.symm
      simp only [updateFirstRecord, if_pos ha, List.find?, decide_eq_false hfa,
        decide_eq_false haa]
    · simp only [updateFirstRecord, if_neg ha, List.find?]
      cases hd : decide (a.activity_id = id2) <;> simp [ih]

theorem lookupLast_updateLast_eq (id : Nat) (f : AgentActivityRecord → AgentActivityRecord)
    (hid : ∀ a, (f a).activity_id = a.activity_id)
    (l : List AgentActivityRecord) (r : AgentActivityRecord)
    (h : lookupLastRec id l = some r) :
    lookupLastRec id (updateLastRecord id f l) = some (f r) := by
  unfold lookupLastRec updateLastRecord
  rw [List.reverse_reverse]
  exact find_updateFirst_eq id f hid l.reverse r h

theorem lookupLast_updateLast_ne (id id2 : Nat)
    (f : AgentActivityRecord → AgentActivityRecord)
    (hid : ∀ a, (f a).activity_id = a.activity_id)
    (hne : ¬ id2 = id) (l : List AgentActivityRecord) :
    lookupLastRec id2 (updateLastRecord id f l) = lookupLastRec id2 l := by
  unfold lookupLastRec updateLastRecord
  rw [List.reverse_reverse]
  exact find_updateFirst_ne id id2 f hid hne l.reverse

theorem mem_updateFirst (id : Nat) (f : AgentActivityRecord → AgentActivityRecord)
    (l : List AgentActivityRecord) (rec2 : AgentActivityRecord)
    (h : rec2 ∈ updateFirstRecord id f l) :
    rec2 ∈ l ∨ ∃ r, r ∈ l ∧ rec2 = f r ∧ r.activity_id = id := by
  induction l with
  | nil => simp [updateFirstRecord] at h
  | cons a rest ih =>
    by_cases ha : a.activity_id = id
    · simp only [updateFirstRecord, if_pos ha, List.mem_cons] at h
      rcases h with h | h
      · exact Or.inr ⟨a, List.mem_cons_self a rest, h, ha⟩
      · exact Or.inl (List.mem_cons_of_mem a h)
    · simp only [updateFirstRecord, if_neg ha, List.mem_cons] at h
      rcases h with h | h
      · exact Or.inl (h ▸ List.mem_cons_self a rest)
      · rcases ih h with h2 | ⟨r, hr, he, hi⟩
        · exact Or.inl (List.mem_cons_of_mem a h2)
        · exact Or.inr ⟨r, List.mem_cons_of_mem a hr, he, hi⟩

theorem mem_updateLast (id : Nat) (f : AgentActivityRecord → AgentActivityRecord)
    (l : List AgentActivityRecord) (rec2 : AgentActivityRecord)
    (h : rec2 ∈ updateLastRecord id f l) :
    rec2 ∈ l ∨ ∃ r, r ∈ l ∧ rec2 = f r ∧ r.activity_id = id := by
  unfold updateLastRecord at h
  rw [List.mem_reverse] at h
  rcases mem_updateFirst id f l.reverse rec2 h with h2 | ⟨r, hr, he, hi⟩
  · exact Or.inl (List.mem_reverse.mp h2)
  · exact Or.inr ⟨r, List.mem_reverse.mp hr, he, hi⟩

/-- The well-formedness invariant of a tracker state: the running-activity
keys are distinct, each refers (through the dict aliasing) to a `Running`
record with a start time, and every terminal record's id has been
deregistered. -/
def TrackerInv (tr : WorkflowTracker) : Prop :=
  tr.current_activities.Nodup ∧
  (∀ id ∈ tr.current_activities, ∃ r t,
    lookupLastRec id tr.activities = some r ∧
    r.status = ActivityStatus.running ∧ r.start_time = some t) ∧
  (∀ rec ∈ tr.activities,
    rec.status = ActivityStatus.completed ∨ rec.status = ActivityStatus.failed →
    rec.activity_id ∉ tr.current_activities)

theorem current_sub_ids (tr : WorkflowTracker) (h : TrackerInv tr) :
    ∀ id ∈ tr.current_activities, id ∈ tr.activities.map AgentActivityRecord.activity_id := by
  intro id hm
  obtain ⟨r, t, hl, _, _⟩ := h.2.1 id hm
  obtain ⟨hr, hi⟩ := lookupLastRec_spec id tr.activities r hl
  exact hi ▸ List.mem_map_of_mem _ hr

theorem trackerInv_start (tr : WorkflowTracker) (a b c : Str) (i m : Option KV)
    (id now : Nat) (h : TrackerInv tr)
    (hfresh : id ∉ tr.activities.map AgentActivityRecord.activity_id) :
    TrackerInv (start_activity tr a b c i m id now).1 := by
  obtain ⟨hnd, hrun, hterm⟩ := h
  have hidc : id ∉ tr.current_activities := fun hm =>
    hfresh (current_sub_ids tr ⟨hnd, hrun, hterm⟩ id hm)
  simp only [TrackerInv, start_activity, if_neg hidc]
  refine ⟨?_, ?_, ?_⟩
  · simp [List.nodup_append, hnd, hidc]
  · intro id2 hm2
    rw [List.mem_append] at hm2
    rcases hm2 with hm2 | hm2
    · obtain ⟨r, t, hl, hs, ht⟩ := hrun id2 hm2
      refine ⟨r, t, ?_, hs, ht⟩
      rw [lookupLast_append_ne]
      · exact hl
      · intro hh
        have hid2 : id = id2 := hh
        apply hfresh
        rw [hid2]
        exact current_sub_ids tr ⟨hnd, hrun, hterm⟩ id2 hm2
    · simp only [List.mem_singleton] at hm2
      subst hm2
      exact ⟨_, now, lookupLast_append_self id2 _ tr.activities rfl, rfl, rfl⟩
  · intro rec2 hrec hst
    rw [List.mem_append] at hrec
    rcases hrec with hrec | hrec
    · have hni := hterm rec2 hrec hst
      have hne : rec2.activity_id ≠ id := fun hh =>
        hfresh (hh ▸ List.mem_map_of_mem _ hrec)
      simp [hni, hne]
    · simp only [List.mem_singleton] at hrec
      subst hrec
      simp at hst

theorem trackerInv_complete (tr : WorkflowTracker) (id : Nat) (o : Option KV)
    (s : Option (List Str)) (now : Nat) (h : TrackerInv tr) :
    TrackerInv (complete_activity tr id o s now) := by
  obtain ⟨hnd, hrun, hterm⟩ := h
  by_cases hm : id ∈ tr.current_activities
  · simp only [TrackerInv, complete_activity, if_pos hm]
    refine ⟨hnd.erase id, ?_, ?_⟩
    · intro id2 hm2
      have h2 := (hnd.mem_erase_iff).mp hm2
      obtain ⟨r, t, hl, hs, ht⟩ := hrun id2 h2.2
      refine ⟨r, t, ?_, hs, ht⟩
      rw [lookupLast_updateLast_ne id id2 _ (completeRecord_activity_id o s now) h2.1]
      exact hl
    · intro rec2 hrec hst
      rcases mem_updateLast id _ tr.activities rec2 hrec with hrec2 | ⟨r, hr, he, hi⟩
      · intro hmem
        exact hterm rec2 hrec2 hst ((hnd.mem_erase_iff.mp hmem).2)
      · intro hmem
        have : rec2.activity_id = id := by
          rw [he, completeRecord_activity_id, hi]
        rw [this] at hmem
        exact (hnd.mem_erase_iff.mp hmem).1 rfl
  · simp only [complete_activity, if_neg hm]
    exact ⟨hnd, hrun, hterm⟩

theorem trackerInv_fail (tr : WorkflowTracker) (id : Nat) (e : Str)
    (rc : Nat) (now : Nat) (h : TrackerInv tr) :
    TrackerInv (fail_activity tr id e rc now) := by
  obtain ⟨hnd, hrun, hterm⟩ := h
  by_cases hm : id ∈ tr.current_activities
  · simp only [TrackerInv, fail_activity, if_pos hm]
    refine ⟨hnd.erase id, ?_, ?_⟩
    · intro id2 hm2
      have h2 := (hnd.mem_erase_iff).mp hm2
      obtain ⟨r, t, hl, hs, ht⟩ := hrun id2 h2.2
      refine ⟨r, t, ?_, hs, ht⟩
      rw [lookupLast_updateLast_ne id id2 _ (failRecord_activity_id e rc now) h2.1]
      exact hl
    · intro rec2 hrec hst
      rcases mem_updateLast id _ tr.activities rec2 hrec with hrec2 | ⟨r, hr, he, hi⟩
      · intro hmem
        exact hterm rec2 hrec2 hst ((hnd.mem_erase_iff.mp hmem).2)
      · intro hmem
        have : rec2.activity_id = id := by
          rw [he, failRecord_activity_id, hi]
        rw [this] at hmem
        exact (hnd.mem_erase_iff.mp hmem).1 rfl
  · simp only [fail_activity, if_neg hm]
    exact ⟨hnd, hrun, hterm⟩

theorem ids_applyTrOp (tr : WorkflowTracker) (op : TrOp) :
    ((applyTrOp tr op).activities.map AgentActivityRecord.activity_id =
      tr.activities.map AgentActivityRecord.activity_id ++ startIds [op]) := by
  cases op with
  | start a b c i m id now => simp [applyTrOp, start_activity, startIds]
  | complete id o s now =>
    simp only [applyTrOp, complete_activity, startIds, List.append_nil]
    by_cases hm : id ∈ tr.current_activities
    · rw [if_pos hm]
      exact map_updateLastRecord _ id _ (completeRecord_activity_id o s now) _
    · rw [if_neg hm]
  | fail id e rc now =>
    simp only [applyTrOp, fail_activity, startIds, List.append_nil]
    by_cases hm : id ∈ tr.current_activities
    · rw [if_pos hm]
      exact map_updateLastRecord _ id _ (failRecord_activity_id e rc now) _
    · rw [if_neg hm]

theorem trackerInv_foldl (ops : List TrOp) :
    ∀ tr, TrackerInv tr → (startIds ops).Nodup →
    (∀ id2 ∈ startIds ops, id2 ∉ tr.activities.map AgentActivityRecord.activity_id) →
    TrackerInv (ops.foldl applyTrOp tr) := by
  induction ops with
  | nil =>
    intro tr h _ _
    exact h
  | cons op rest ih =>
    intro tr h hnd hfresh
    rw [List.foldl_cons]
    have hids := ids_applyTrOp tr op
    cases op with
    | start a b c i m id now =>
      have hidmem : id ∈ startIds (TrOp.start a b c i m id now :: rest) := by
        simp [startIds]
      have h2 := trackerInv_start tr a b c i m id now h (hfresh id hidmem)
      refine ih _ h2 ?_ ?_
      · simp only [startIds] at hnd
        exact hnd.of_cons
      · intro id2 hm2
        rw [hids]
        simp only [startIds] at hnd
        rw [List.mem_append]
        intro hc
        rcases hc with hc | hc
        · exact hfresh id2 (by simp [startIds, hm2]) hc
        · simp only [startIds, List.mem_singleton] at hc
          subst hc
          exact (List.nodup_cons.mp hnd).1 hm2
    | complete id o s now =>
      refine ih _ (trackerInv_complete tr id o s now h) ?_ ?_
      · simpa [startIds] using hnd
      · intro id2 hm2
        rw [hids]
        simp only [startIds, List.append_nil]
        exact hfresh id2 (by simpa [startIds] using hm2)
    | fail id e rc now =>
      refine ih _ (trackerInv_fail tr id e rc now h) ?_ ?_
      · simpa [startIds] using hnd
      · intro id2 hm2
        rw [hids]
        simp only [startIds, List.append_nil]
        exact hfresh id2 (by simpa [startIds] using hm2)

theorem trackerInv_runTrOps (session_id : Str) (t0 : Nat) (ops : List TrOp)
    (h : (startIds ops).Nodup) : TrackerInv (runTrOps session_id t0 ops) := by
  unfold runTrOps
  refine trackerInv_foldl ops _ ?_ h ?_
  · refine ⟨List.nodup_nil, ?_, ?_⟩
    · intro id hm
      simp [WorkflowTracker.init] at hm
    · intro rec hm
      simp [WorkflowTracker.init] at hm
  · intro id2 _
    simp [WorkflowTracker.init]

/-! # Claim C8 -/

/-- C8: after any well-formed sequence of ledger operations (distinct
activity ids, as `uuid4` supplies), calling `complete_activity` with an id
that is not registered as running is a no-op that returns the tracker state
unchanged; every terminal (Completed or Failed) record's id is unregistered,
so duplicate completion of a terminal activity falls into that no-op case;
and completing a registered activity transitions its `Running` record to
`Completed`, stamps the end time and records the duration. -/
theorem C8_complete_activity_semantics (session_id : Str) (t0 : Nat)
    (ops : List TrOp) (hids : (startIds ops).Nodup) :
    (∀ id out src now, id ∉ (runTrOps session_id t0 ops).current_activities →
      complete_activity (runTrOps session_id t0 ops) id out src now =
        runTrOps session_id t0 ops) ∧
    (∀ rec ∈ (runTrOps session_id t0 ops).activities,
      rec.status = ActivityStatus.completed ∨ rec.status = ActivityStatus.failed →
      rec.activity_id ∉ (runTrOps session_id t0 ops).current_activities) ∧
    (∀ id out src now, id ∈ (runTrOps session_id t0 ops).current_activities →
      ∃ r t, lookupLastRec id (runTrOps session_id t0 ops).activities = some r ∧
        r.status = ActivityStatus.running ∧ r.start_time = some t ∧
        lookupLastRec id
            (complete_activity (runTrOps session_id t0 ops) id out src now).activities =
          some { r with status := ActivityStatus.completed, end_time := some now,
                        output_data := out, sources := src,
                        duration_seconds := some (now - t) }) := by
  have hinv := trackerInv_runTrOps session_id t0 ops hids
  refine ⟨?_, hinv.2.2, ?_⟩
  · intro id out src now hni
    simp [complete_activity, hni]
  · intro id out src now hm
    obtain ⟨r, t, hl, hs, ht⟩ := hinv.2.1 id hm
    refine ⟨r, t, hl, hs, ht, ?_⟩
    simp only [complete_activity, if_pos hm]
    rw [lookupLast_updateLast_eq id _ (completeRecord_activity_id out src now) _ r hl]
    congr 1
    simp [completeRecord, ht]

/-- Witness for C8: a one-start trace; completing an unknown id is a no-op
and completing the running id transitions it. -/
theorem C8_complete_activity_semantics_witness :
    (startIds [TrOp.start (str "security_analyst") (str "SecurityAnalystAgent")
        (str "analyze_topic") none none 7 3]).Nodup ∧
    (9 ∉ (runTrOps (str "s") 0 [TrOp.start (str "security_analyst")
        (str "SecurityAnalystAgent") (str "analyze_topic") none none 7 3]).current_activities) ∧
    complete_activity (runTrOps (str "s") 0 [TrOp.start (str "security_analyst")
        (str "SecurityAnalystAgent") (str "analyze_topic") none none 7 3]) 9 none none 5 =
      runTrOps (str "s") 0 [TrOp.start (str "security_analyst")
        (str "SecurityAnalystAgent") (str "analyze_topic") none none 7 3] :=
  ⟨by decide, by decide,
   (C8_complete_activity_semantics (str "s") 0 _ (by decide)).1 9 none none 5 (by decide)⟩

/-! # Lemmas for the title generator length bound -/

theorem length_rstripSet_le (set s : Str) : (rstripSet set s).length ≤ s.length := by
  unfold rstripSet
  rw [List.length_reverse]
  calc (s.reverse.dropWhile fun c => set.contains c).length
      ≤ s.reverse.length := (List.dropWhile_sublist _).length_le
    _ = s.length := List.length_reverse s

theorem rfindSpace_lt (s : Str) (l : Nat) (h : rfindSpace s = some l) : l < s.length := by
  unfold rfindSpace at h
  have hm : l ∈ (List.range s.length).filter (fun i => s.get? i = some 32) :=
    List.mem_of_mem_getLast? (Option.mem_def.mpr h)
  have := (List.mem_filter.mp hm).1
  exact List.mem_range.mp this

theorem truncate_intelligently_le (text : Str) (m : Nat) (hm : 3 ≤ m) :
    (truncate_intelligently text m).length ≤ m := by
  unfold truncate_intelligently
  by_cases h : text.length ≤ m
  · simpa [h]
  · rw [if_neg h]
    have htail : (rstripSet (str ",:;- ") (text.take (m - 3)) ++ str "...").length ≤ m := by
      rw [List.length_append]
      have h1 : (rstripSet (str ",:;- ") (text.take (m - 3))).length ≤ m - 3 :=
        le_trans (length_rstripSet_le _ _) (by simpa using List.length_take_le (m - 3) text)
      have h2 : (str "...").length = 3 := by decide
      omega
    cases hrf : rfindSpace (text.take m) with
    | none => exact htail
    | some l =>
      dsimp only
      by_cases hc : floatGtPoint7 m l
      · rw [if_pos hc]
        have hl : l < (text.take m).length := rfindSpace_lt _ l hrf
        have hl2 : (text.take m).length ≤ m := by simpa using List.length_take_le m text
        calc (rstripSet (str ",:;-") (text.take l)).length
            ≤ (text.take l).length := length_rstripSet_le _ _
          _ ≤ l := by simpa using List.length_take_le l text
          _ ≤ m := by omega
      · rw [if_neg hc]
        exact htail

theorem stripPhrases_some_le (ps : List Str) (o r o2 : Str)
    (h : stripPhrases o ps = (some r, o2)) : r.length ≤ cfg_max_length := by
  induction ps generalizing o with
  | nil => simp [stripPhrases] at h
  | cons p rest ih =>
    unfold stripPhrases at h
    by_cases hc : (stripS (replaceAll p [] o)).length ≤ cfg_max_length ∧
        cfg_min_length < (stripS (replaceAll p [] o)).length
    · rw [if_pos hc] at h
      cases h
      exact hc.1
    · rw [if_neg hc] at h
      exact ih _ h

theorem applyAbbrevs_some_le (ab : List (Str × Str)) (o r o2 : Str)
    (h : applyAbbrevs o ab = (some r, o2)) : r.length ≤ cfg_max_length := by
  induction ab generalizing o with
  | nil => simp [applyAbbrevs] at h
  | cons p rest ih =>
    unfold applyAbbrevs at h
    by_cases hc : (replaceAll p.1 p.2 o).length ≤ cfg_max_length
    · rw [if_pos hc] at h
      cases h
      exact hc
    · rw [if_neg hc] at h
      exact ih _ h

theorem optimize_title_length_le (t : Str) (ks : List Str) :
    (optimize_title_length t ks).length ≤ cfg_max_length := by
  unfold optimize_title_length
  by_cases h : t.length ≤ cfg_max_length
  · simpa [h]
  · rw [if_neg h]
    rcases hsp : stripPhrases t redundant_phrases with ⟨ro, o1⟩
    cases ro with
    | some r =>
      simpa using stripPhrases_some_le redundant_phrases t r o1 hsp
    | none =>
      simp only
      rcases hab : applyAbbrevs o1 abbreviations with ⟨ro2, o2⟩
      cases ro2 with
      | some r => simpa using applyAbbrevs_some_le abbreviations o1 r o2 hab
      | none => simpa using truncate_intelligently_le o2 cfg_max_length (by decide)

/-! # Claim C5 -/

/-- C5: the claim as stated is false on the code — for the degenerate empty
topic (with no content sample), `generate_title` returns the empty string,
violating the must-never-return-an-empty-string half of the contract. -/
theorem C5_counterexample :
    generate_title (str "") none (str "blog_post") 1 (str "Security Analysis") = [] := by
  decide

/-- C5 (amended): for every topic, optional content sample, content type,
chapter number and report type, the generated title has length at most the
configured maximum length L = 80. (The non-emptiness half of the original
claim fails on degenerate inputs: the empty topic yields the empty title.) -/
theorem C5_title_length_bound (topic : Str) (content : Option Str)
    (content_type : Str) (chapter_number : Nat) (report_type : Str) :
    (generate_title topic content content_type chapter_number report_type).length ≤
      cfg_max_length := by
  unfold generate_title
  by_cases h1 : content_type = str "book_chapter"
  · simpa [h1] using optimize_title_length_le _ _
  · by_cases h2 : content_type = str "research_report"
    · simpa [h1, h2] using optimize_title_length_le _ _
    · simp only [if_neg h1, if_neg h2]
      cases hb : generate_blog_title topic (extract_keywords topic content) with
      | some b => simpa using optimize_title_length_le _ _
      | none =>
        simp only [fallback_title, if_neg h1, if_neg h2]
        exact truncate_intelligently_le topic cfg_max_length (by decide)

/-! # Claim C3 -/

/-- C3: evaluation of the pipeline at the failing input. When the
security-analyst expert raises `Exception("expert boom")`, the running
Activity Record is marked Failed with the captured message, no later stage
ever starts (the ledger holds exactly that one record) and no artifact is
produced — but the exception that propagates out of `generate_blog_post` is
`RuntimeError("dictionary changed size during iteration")` (the `except`
block iterates `current_activities` while `fail_activity` deletes from it),
not the expert's error, so the claimed re-raise of the captured error does
not happen. -/
theorem C3_expert_failure_behaviour :
    errMsgOf c3run = some (str "dictionary changed size during iteration") ∧
    (errTrackerOf c3run).map (fun tr =>
        tr.activities.map (fun a => (a.agent_name, a.status, a.error_message))) =
      some [(str "security_analyst", ActivityStatus.failed, some (str "expert boom"))] ∧
    errMsgOf c3run ≠ some (str "expert boom") ∧
    okContent c3run = none := by
  exact ⟨by decide, by decide, by decide, by decide⟩

/-! # Lemmas: underscore-freeness toolkit for claim C6 -/

theorem noU_append (s t : Str) (hs : noU s) (ht : noU t) : noU (s ++ t) := by
  simp only [noU, List.mem_append, not_or]
  exact ⟨hs, ht⟩

theorem noU_take (s : Str) (n : Nat) (hs : noU s) : noU (s.take n) :=
  fun h => hs ((List.take_sublist n s).mem h)

theorem noU_drop (s : Str) (n : Nat) (hs : noU s) : noU (s.drop n) :=
  fun h => hs ((List.drop_sublist n s).mem h)

theorem noU_reverse (s : Str) (hs : noU s) : noU s.reverse :=
  fun h => hs (List.mem_reverse.mp h)

theorem noU_dropWhile (p : Nat → Bool) (s : Str) (hs : noU s) : noU (s.dropWhile p) :=
  fun h => hs ((List.dropWhile_sublist p).mem h)

theorem noU_stripS (s : Str) (hs : noU s) : noU (stripS s) :=
  noU_reverse _ (noU_dropWhile _ _ (noU_reverse _ (noU_dropWhile _ _ hs)))

theorem noU_rstripSet (set s : Str) (hs : noU s) : noU (rstripSet set s) :=
  noU_reverse _ (noU_dropWhile _ _ (noU_reverse _ hs))

theorem mem_intersperse {α : Type} (sep : α) (l : List α) (x : α)
    (h : x ∈ l.intersperse sep) : x = sep ∨ x ∈ l := by
  induction l with
  | nil => simp at h
  | cons a rest ih =>
    cases rest with
    | nil =>
      simp only [List.intersperse_single, List.mem_singleton] at h
      exact Or.inr (by simp [h])
    | cons b r2 =>
      simp only [List.intersperse_cons₂, List.mem_cons] at h
      rcases h with h | h | h
      · exact Or.inr (by simp [h])
      · exact Or.inl h
      · rcases ih (by simpa using h) with h2 | h2
        · exact Or.inl h2
        · exact Or.inr (List.mem_cons_of_mem a h2)

theorem noU_joinSep (sep : Str) (parts : List Str) (hsep : noU sep)
    (hp : ∀ p ∈ parts, noU p) : noU (joinSep sep parts) := by
  intro h
  unfold joinSep at h
  obtain ⟨piece, hmem, hin⟩ := List.mem_flatten.mp h
  rcases mem_intersperse sep parts piece hmem with h2 | h2
  · exact hsep (h2 ▸ hin)
  · exact hp piece h2 hin

theorem natToCharsAux_digits (n : Nat) (acc : Str)
    (hacc : ∀ c ∈ acc, 48 ≤ c ∧ c ≤ 57) :
    ∀ c ∈ natToCharsAux n acc, 48 ≤ c ∧ c ≤ 57 := by
  induction n using Nat.strong_induction_on generalizing acc with
  | _ n ih =>
    unfold natToCharsAux
    by_cases h : n < 10
    · rw [if_pos h]
      intro c hc
      rcases List.mem_cons.mp hc with hc | hc
      · omega
      · exact hacc c hc
    · rw [if_neg h]
      refine ih (n / 10) (Nat.div_lt_self (by omega) (by omega)) _ ?_
      intro c hc
      rcases List.mem_cons.mp hc with hc | hc
      · have := Nat.mod_lt n (show 0 < 10 by omega)
        omega
      · exact hacc c hc

theorem noU_natToChars (n : Nat) : noU (natToChars n) := by
  intro h
  have := natToCharsAux_digits n [] (by simp) 95 h
  omega

theorem lowerC_ne_95 (d : Nat) (hd : d ≠ 95) : lowerC d ≠ 95 := by
  unfold lowerC
  split <;> omega

theorem upperC_ne_95 (d : Nat) (hd : d ≠ 95) : upperC d ≠ 95 := by
  unfold upperC
  split <;> omega

theorem mem_titleAux (s : Str) (b : Bool) (c : Nat) (h : c ∈ titleAux s b) :
    ∃ d ∈ s, c = d ∨ c = lowerC d ∨ c = upperC d := by
  induction s generalizing b with
  | nil => simp [titleAux] at h
  | cons a rest ih =>
    simp only [titleAux, List.mem_cons] at h
    rcases h with h | h
    · refine ⟨a, List.mem_cons_self a rest, ?_⟩
      by_cases ha : isAlphaC a
      · rw [if_pos ha] at h
        by_cases hb : b
        · rw [if_pos hb] at h
          exact Or.inr (Or.inl h)
        · rw [if_neg hb] at h
          exact Or.inr (Or.inr h)
      · rw [if_neg ha] at h
        exact Or.inl h
    · obtain ⟨d, hd, hor⟩ := ih (isAlphaC a) h
      exact ⟨d, List.mem_cons_of_mem a hd, hor⟩

theorem noU_titleS (s : Str) (hs : noU s) : noU (titleS s) := by
  intro h
  obtain ⟨d, hd, hor⟩ := mem_titleAux s false 95 h
  have hdne : d ≠ 95 := fun he => hs (he ▸ hd)
  rcases hor with h2 | h2 | h2
  · exact hdne h2.symm
  · exact lowerC_ne_95 d hdne h2.symm
  · exact upperC_ne_95 d hdne h2.symm

theorem mem_replaceAll (pat rep s : Str) (c : Nat) (h : c ∈ replaceAll pat rep s) :
    c ∈ rep ∨ c ∈ s := by
  induction s using replaceAll.induct pat rep with
  | case1 => simp [replaceAll] at h
  | case2 cc cs hcond ih =>
    rw [replaceAll, if_pos hcond] at h
    rcases List.mem_append.mp h with h2 | h2
    · exact Or.inl h2
    · rcases ih h2 with h3 | h3
      · exact Or.inl h3
      · exact Or.inr (List.mem_cons_of_mem cc ((List.drop_sublist _ cs).mem h3))
  | case3 cc cs hcond ih =>
    rw [replaceAll, if_neg hcond] at h
    rcases List.mem_cons.mp h with h2 | h2
    · exact Or.inr (h2 ▸ List.mem_cons_self cc cs)
    · rcases ih h2 with h3 | h3
      · exact Or.inl h3
      · exact Or.inr (List.mem_cons_of_mem cc h3)

theorem noU_replaceAll (pat rep s : Str) (hr : noU rep) (hs : noU s) :
    noU (replaceAll pat rep s) := by
  intro h
  rcases mem_replaceAll pat rep s 95 h with h2 | h2
  · exact hr h2
  · exact hs h2

theorem mem_splitOnC (c : Nat) (s : Str) (p : Str) (hp : p ∈ splitOnC c s) :
    ∀ x ∈ p, x ∈ s := by
  induction s generalizing p with
  | nil =>
    simp only [splitOnC, List.mem_singleton] at hp
    subst hp
    simp
  | cons a rest ih =>
    unfold splitOnC at hp
    by_cases ha : a = c
    · rw [if_pos ha] at hp
      rcases List.mem_cons.mp hp with h2 | h2
      · subst h2
        simp
      · intro x hx
        exact List.mem_cons_of_mem a (ih p h2 x hx)
    · rw [if_neg ha] at hp
      rcases hsp : splitOnC c rest with _ | ⟨h0, t0⟩
      · rw [hsp] at hp
        simp only [List.mem_singleton] at hp
        subst hp
        intro x hx
        simpa using Or.inl (List.mem_singleton.mp hx)
      · rw [hsp] at hp
        rcases List.mem_cons.mp hp with h2 | h2
        · subst h2
          intro x hx
          rcases List.mem_cons.mp hx with h3 | h3
          · simp [h3]
          · exact List.mem_cons_of_mem a (ih h0 (hsp ▸ List.mem_cons_self h0 t0) x h3)
        · intro x hx
          exact List.mem_cons_of_mem a (ih p (hsp ▸ List.mem_cons_of_mem h0 h2) x hx)

theorem chars_splitOnS (sep s : Str) : ∀ p ∈ splitOnS sep s, ∀ x ∈ p, x ∈ s := by
  induction s using splitOnS.induct sep with
  | case1 =>
    intro p hp x hx
    simp only [splitOnS, List.mem_singleton] at hp
    subst hp
    simp at hx
  | case2 cc cs hcond ih =>
    intro p hp x hx
    simp only [splitOnS, if_pos hcond] at hp
    rcases List.mem_cons.mp hp with h2 | h2
    · subst h2
      simp at hx
    · exact List.mem_cons_of_mem cc ((List.drop_sublist _ cs).mem (ih p h2 x hx))
  | case3 cc cs hcond hnil ih =>
    intro p hp x hx
    simp only [splitOnS, if_neg hcond, hnil, List.mem_singleton] at hp
    subst hp
    simpa using Or.inl (List.mem_singleton.mp hx)
  | case4 cc cs hcond h0 t0 hsp ih =>
    intro p hp x hx
    simp only [splitOnS, if_neg hcond, hsp, List.mem_cons] at hp
    rcases hp with h2 | h2
    · subst h2
      rcases List.mem_cons.mp hx with h3 | h3
      · simp [h3]
      · exact List.mem_cons_of_mem cc (ih h0 (hsp ▸ List.mem_cons_self h0 t0) x h3)
    · exact List.mem_cons_of_mem cc (ih p (hsp ▸ List.mem_cons_of_mem h0 h2) x hx)

theorem noU_ciReplaceFirst (term s : Str) (hterm : noU term) (hs : noU s) :
    noU (ciReplaceFirst term s) := by
  unfold ciReplaceFirst
  cases h : findSubIdx (lowerS term) (lowerS s) with
  | none => exact hs
  | some i =>
    refine noU_append _ _ (noU_append _ _ (noU_append _ _ (noU_append _ _
      (noU_take s i hs) (by decide)) hterm) (by decide)) (noU_drop s _ hs)

theorem noU_foldl_ciReplace (terms : List Str) (t : Str)
    (hterms : ∀ x ∈ terms, noU x) (ht : noU t) :
    noU (terms.foldl (fun t term => ciReplaceFirst term t) t) := by
  induction terms generalizing t with
  | nil => exact ht
  | cons a rest ih =>
    rw [List.foldl_cons]
    exact ih _ (fun x hx => hterms x (List.mem_cons_of_mem a hx))
      (noU_ciReplaceFirst a t (hterms a (List.mem_cons_self a rest)) ht)

theorem noU_add_emphasis (t : Str) (ht : noU t) : noU (add_emphasis t) :=
  noU_foldl_ciReplace key_terms t (by decide) ht

theorem noU_enhanceLine (l : Str) (hl : noU l) : noU (enhanceLine l) := by
  have he := noU_add_emphasis l hl
  show noU (if startsW (str "-") (add_emphasis l) = true ∨
      startsW (str "•") (add_emphasis l) = true then
    str "- " ++ stripS ((add_emphasis l).drop 1) else add_emphasis l)
  split
  · exact noU_append _ _ (by decide) (noU_stripS _ (noU_drop _ _ he))
  · exact he

theorem noU_enhance_content_formatting (content : Str) (hc : noU content) :
    noU (enhance_content_formatting content) := by
  unfold enhance_content_formatting
  refine noU_joinSep _ _ (by decide) ?_
  intro p hp
  simp only [List.mem_map, List.mem_filter] at hp
  obtain ⟨l2, ⟨⟨l1, hl1, hl2e⟩, _⟩, hpe⟩ := hp
  subst hpe
  subst hl2e
  refine noU_enhanceLine _ (noU_stripS _ ?_)
  intro hin
  exact hc (mem_splitOnC 10 content l1 hl1 95 hin)

theorem noU_extract_key_points (content : Str) (hc : noU content) :
    noU (extract_key_points content) := by
  unfold extract_key_points
  refine noU_joinSep _ _ (by decide) ?_
  intro p hp
  simp only [List.mem_filterMap] at hp
  obtain ⟨l2, hl2, hcond⟩ := hp
  obtain ⟨l1, hl1, hl2e⟩ := List.mem_map.mp hl2
  by_cases hlen : 20 < l2.length
  · rw [if_pos hlen] at hcond
    cases hcond
    refine noU_append _ _ (by decide) ?_
    subst hl2e
    refine noU_stripS _ ?_
    intro hin
    exact hc (mem_splitOnC 46 content l1 ((List.take_sublist 3 _).mem hl1) 95 hin)
  · rw [if_neg hlen] at hcond
    cases hcond

/-! # Lemmas: the template sections are underscore-free -/

theorem noU_format_header (title : Str) (rt : Nat) (depth dateLong : Str)
    (h1 : noU title) (h2 : noU depth) (h3 : noU dateLong) :
    noU (format_header title rt depth dateLong) := by
  unfold format_header
  simp only [noU, List.mem_append, not_or, and_assoc]
  exact ⟨by decide, h1, by decide, noU_natToChars rt, by decide,
    noU_titleS depth h2, by decide, h3, by decide⟩

theorem noU_format_introduction (topic style : Str) (h : noU topic) :
    noU (format_introduction topic style) := by
  unfold format_introduction
  split
  · simp only [noU, List.mem_append, not_or, and_assoc]
    exact ⟨by decide, h, by decide, h, by decide⟩
  · split
    · simp only [noU, List.mem_append, not_or, and_assoc]
      exact ⟨by decide, h, by decide⟩
    · simp only [noU, List.mem_append, not_or, and_assoc]
      exact ⟨by decide, h, by decide⟩

theorem noU_format_historical_context (hc : Str) (h : noU hc) :
    noU (format_historical_context hc) := by
  unfold format_historical_context
  simp only [noU, List.mem_append, not_or, and_assoc]
  exact ⟨by decide, noU_enhance_content_formatting hc h, by decide⟩

theorem noU_format_current_landscape (sec threat : Str) (h1 : noU sec) (h2 : noU threat) :
    noU (format_current_landscape sec threat) := by
  unfold format_current_landscape
  simp only [noU, List.mem_append, not_or, and_assoc]
  exact ⟨by decide, noU_enhance_content_formatting sec h1, by decide,
    noU_extract_key_points threat h2⟩

theorem noU_format_technical_recommendations (c : Str) :
    noU (format_technical_recommendations c) := by
  unfold format_technical_recommendations
  decide

theorem noU_format_technical_deep_dive (sec depth : Str) (h1 : noU sec) :
    noU (format_technical_deep_dive sec depth) := by
  unfold format_technical_deep_dive
  have hnote : noU (if depth = str "beginner" then
      str "\n*📘 **Note**: Technical concepts are explained in beginner-friendly terms.*\n"
    else if depth = str "advanced" then
      str "\n*🔬 **Note**: This section includes advanced technical details.*\n"
    else []) := by
    split
    · decide
    · split
      · decide
      · intro hin
        simp at hin
  simp only [noU, List.mem_append, not_or, and_assoc]
  exact ⟨by decide, hnote, by decide, noU_enhance_content_formatting sec h1,
    by decide, noU_format_technical_recommendations sec⟩

theorem noU_extract_threat_indicators (t : Str) : noU (extract_threat_indicators t) := by
  unfold extract_threat_indicators
  decide

theorem noU_format_threat_intelligence (threat : Str) (h : noU threat) :
    noU (format_threat_intelligence threat) := by
  unfold format_threat_intelligence
  simp only [noU, List.mem_append, not_or, and_assoc]
  exact ⟨by decide, noU_enhance_content_formatting threat h, by decide,
    noU_extract_threat_indicators threat⟩

theorem noU_strategyItems (i : Nat) (suggestions : List Str)
    (h : ∀ s ∈ suggestions, noU s) : noU (strategyItems i suggestions) := by
  induction suggestions generalizing i with
  | nil =>
    intro hin
    simp [strategyItems] at hin
  | cons s rest ih =>
    unfold strategyItems
    have hpr : noU (if i ≤ 2 then str "High" else if i ≤ 4 then str "Medium"
        else str "Low") := by
      split
      · decide
      · split
        · decide
        · decide
    simp only [noU, List.mem_append, not_or, and_assoc]
    exact ⟨by decide, noU_natToChars i, by decide,
      h s (List.mem_cons_self s rest), by decide, hpr,
      ih (i + 1) (fun x hx => h x (List.mem_cons_of_mem s hx))⟩

theorem noU_format_defensive_strategies (suggestions : List Str)
    (h : ∀ s ∈ suggestions, noU s) : noU (format_defensive_strategies suggestions) := by
  unfold format_defensive_strategies
  simp only [noU, List.mem_append, not_or, and_assoc]
  exact ⟨by decide, noU_strategyItems 1 suggestions h, by decide⟩

theorem noU_extract_historical_lessons (t : Str) : noU (extract_historical_lessons t) := by
  unfold extract_historical_lessons
  decide

theorem noU_format_lessons_learned (hist : Str) (adds : List Str)
    (h : ∀ s ∈ adds, noU s) : noU (format_lessons_learned hist adds) := by
  unfold format_lessons_learned
  have hl : noU (joinSep (str "\n") ((adds.take 3).map (fun s => str "- " ++ s))) := by
    refine noU_joinSep _ _ (by decide) ?_
    intro p hp
    obtain ⟨s, hs, he⟩ := List.mem_map.mp hp
    subst he
    exact noU_append _ _ (by decide) (h s ((List.take_sublist 3 _).mem hs))
  simp only [noU, List.mem_append, not_or, and_assoc]
  exact ⟨by decide, noU_extract_historical_lessons hist, by decide, hl⟩

theorem noU_practicalSteps (i : Nat) (suggestions : List Str)
    (h : ∀ s ∈ suggestions, noU s) : noU (practicalSteps i suggestions) := by
  induction suggestions generalizing i with
  | nil =>
    intro hin
    simp [practicalSteps] at hin
  | cons s rest ih =>
    unfold practicalSteps
    have hpr : noU (if i ≤ 2 then str "🟢 **Priority**: High - Implement immediately\n"
        else if i ≤ 4 then str "🟡 **Priority**: Medium - Plan for next quarter\n"
        else str "🔵 **Priority**: Low - Long-term consideration\n") := by
      split
      · decide
      · split
        · decide
        · decide
    simp only [noU, List.mem_append, not_or, and_assoc]
    exact ⟨by decide, noU_natToChars i, by decide,
      h s (List.mem_cons_self s rest), by decide, hpr,
      ih (i + 1) (fun x hx => h x (List.mem_cons_of_mem s hx))⟩

theorem noU_format_practical_applications (suggestions : List Str)
    (h : ∀ s ∈ suggestions, noU s) : noU (format_practical_applications suggestions) := by
  unfold format_practical_applications
  simp only [noU, List.mem_append, not_or, and_assoc]
  exact ⟨by decide,
    noU_practicalSteps 1 _ (fun x hx => h x ((List.take_sublist 6 _).mem hx)),
    by decide⟩

theorem noU_format_conclusion (topic : Str) (h : noU topic) :
    noU (format_conclusion topic) := by
  unfold format_conclusion
  simp only [noU, List.mem_append, not_or, and_assoc]
  exact ⟨by decide, h, by decide⟩

theorem noU_referencesItems (i : Nat) (sources : List Str)
    (h : ∀ s ∈ sources, noU s) : noU (referencesItems i sources) := by
  induction sources generalizing i with
  | nil =>
    intro hin
    simp [referencesItems] at hin
  | cons s rest ih =>
    unfold referencesItems
    simp only [noU, List.mem_append, not_or, and_assoc]
    exact ⟨noU_natToChars i, by decide, h s (List.mem_cons_self s rest),
      by decide, h s (List.mem_cons_self s rest), by decide,
      ih (i + 1) (fun x hx => h x (List.mem_cons_of_mem s hx))⟩

theorem noU_format_footer (sources : List Str) (md : BlogMetadata) (dateShort : Str)
    (hs : ∀ s ∈ sources, noU s) (h1 : noU md.technical_depth)
    (h2 : noU md.target_audience) (h3 : noU dateShort) :
    noU (format_footer sources md dateShort) := by
  unfold format_footer
  have href : noU (if sources = [] then [] else
      str "\n### 📖 References and Further Reading\n" ++
        referencesItems 1 (sources.take 10)) := by
    split
    · intro hin
      simp at hin
    · refine noU_append _ _ (by decide) ?_
      exact noU_referencesItems 1 _ (fun x hx => hs x ((List.take_sublist 10 _).mem hx))
  simp only [noU, List.mem_append, not_or, and_assoc]
  exact ⟨by decide, h1, by decide, h2, by decide, h3, by decide, by decide, href,
    by decide⟩

theorem noU_format_blog_post (title topic sec threat hist : Str)
    (suggestions sources : List Str) (md : BlogMetadata) (style : Str)
    (dateLong dateShort : Str)
    (h0 : noU title) (h1 : noU topic) (h2 : noU sec) (h3 : noU threat)
    (h4 : noU hist) (h5 : ∀ s ∈ suggestions, noU s) (h6 : ∀ s ∈ sources, noU s)
    (h7 : noU md.technical_depth) (h8 : noU md.target_audience)
    (h9 : noU dateLong) (h10 : noU dateShort) :
    noU (format_blog_post title topic sec threat hist suggestions sources md style
      dateLong dateShort) := by
  unfold format_blog_post
  refine noU_joinSep _ _ (by decide) ?_
  intro p hp
  simp only [List.mem_append, List.mem_cons, List.not_mem_nil, or_false,
    false_or, or_assoc] at hp
  rcases hp with h | h | h | h | h | h | h | h | h | h | h | h
  · subst h
    exact noU_format_header title _ md.technical_depth dateLong h0 h7 h9
  · subst h
    exact noU_format_introduction topic style h1
  · by_cases hw : 1000 < countWords (sec ++ threat ++ hist)
    · rw [if_pos hw] at h
      simp only [List.mem_singleton] at h
      subst h
      unfold format_table_of_contents
      decide
    · rw [if_neg hw] at h
      simp at h
  · subst h
    exact noU_format_historical_context hist h4
  · subst h
    exact noU_format_current_landscape sec threat h2 h3
  · subst h
    exact noU_format_technical_deep_dive sec md.technical_depth h2
  · subst h
    exact noU_format_threat_intelligence threat h3
  · subst h
    exact noU_format_defensive_strategies _
      (fun x hx => h5 x ((List.take_sublist 5 _).mem hx))
  · subst h
    exact noU_format_lessons_learned hist _
      (fun x hx => h5 x ((List.drop_sublist 5 _).mem hx))
  · subst h
    exact noU_format_practical_applications suggestions h5
  · subst h
    exact noU_format_conclusion topic h1
  · subst h
    exact noU_format_footer sources md dateShort h6 h7 h8 h10

/-! # Lemmas: substring scanning and keyword shape -/

theorem startsW_mem (pat : Str) : ∀ s, startsW pat s = true → ∀ c ∈ pat, c ∈ s := by
  induction pat with
  | nil =>
    intro s _ c hc
    simp at hc
  | cons p ps ih =>
    intro s h c hc
    cases s with
    | nil => simp [startsW] at h
    | cons a as =>
      simp only [startsW, Bool.and_eq_true, decide_eq_true_eq] at h
      rcases List.mem_cons.mp hc with h2 | h2
      · subst h2
        rw [h.1]
        exact List.mem_cons_self a as
      · exact List.mem_cons_of_mem a (ih as h.2 c h2)

theorem hasSub_mem (pat : Str) : ∀ s, hasSub pat s = true → ∀ c ∈ pat, c ∈ s := by
  intro s
  induction s with
  | nil =>
    intro h c hc
    cases pat with
    | nil => simp at hc
    | cons p ps => simp [hasSub, startsW] at h
  | cons a as ih =>
    intro h c hc
    unfold hasSub at h
    cases hsw : startsW pat (a :: as) with
    | true => exact startsW_mem pat (a :: as) hsw c hc
    | false =>
      rw [hsw, Bool.false_or] at h
      exact List.mem_cons_of_mem a (ih h c hc)

theorem forbidden_have_underscore : ∀ t ∈ forbiddenTokens, 95 ∈ t := by decide

theorem noU_no_forbidden (s : Str) (hs : noU s) :
    ∀ tok ∈ forbiddenTokens, hasSub tok s = false := by
  intro tok htok
  cases hb : hasSub tok s with
  | false => rfl
  | true =>
    exact absurd (hasSub_mem tok s hb 95 (forbidden_have_underscore tok htok)) hs

theorem tokenize_alpha (s w : Str) (hw : w ∈ tokenize_text s) :
    ∀ c ∈ w, isAlphaC c = true := by
  unfold tokenize_text at hw
  have h1 := (List.mem_filter.mp hw).1
  unfold regexTokens at h1
  have h2 := (List.mem_filter.mp h1).2
  intro c hc
  exact List.all_eq_true.mp h2 c hc

theorem keywordCandidates_alpha (t : Str) (c2 : Option Str) (w : Str)
    (hw : w ∈ keywordCandidates t c2) : ∀ ch ∈ w, isAlphaC ch = true := by
  unfold keywordCandidates at hw
  rcases List.mem_append.mp hw with h | h
  · exact tokenize_alpha t w h
  · cases c2 with
    | none => simp at h
    | some cc => exact tokenize_alpha _ w (List.mem_filter.mp h).1

theorem passOne_spec (ws : List Str) : ∀ f s : List Str, ∃ t,
    passOne ws (f, s) = (f ++ t, s ++ t) ∧
    ∀ w ∈ t, w ∈ ws ∧ w ∉ stop_words ∧ w ∈ cybersecurity_keywords ∧
      2 < w.length ∧ w ∉ s := by
  induction ws with
  | nil =>
    intro f s
    exact ⟨[], by simp [passOne], by simp⟩
  | cons w rest ih =>
    intro f s
    by_cases hc : w ∉ s ∧ w ∉ stop_words ∧ w ∈ cybersecurity_keywords ∧ 2 < w.length
    · obtain ⟨t, ht, hp⟩ := ih (f ++ [w]) (s ++ [w])
      refine ⟨w :: t, ?_, ?_⟩
      · rw [passOne, if_pos hc, ht]
        simp
      · intro x hx
        rcases List.mem_cons.mp hx with h2 | h2
        · subst h2
          exact ⟨List.mem_cons_self x rest, hc.2.1, hc.2.2.1, hc.2.2.2, hc.1⟩
        · obtain ⟨hx1, hx2, hx3, hx4, hx5⟩ := hp x h2
          refine ⟨List.mem_cons_of_mem w hx1, hx2, hx3, hx4, ?_⟩
          intro hxs
          exact hx5 (List.mem_append.mpr (Or.inl hxs))
    · obtain ⟨t, ht, hp⟩ := ih f s
      refine ⟨t, ?_, ?_⟩
      · rw [passOne, if_neg hc, ht]
      · intro x hx
        obtain ⟨hx1, hx2, hx3, hx4, hx5⟩ := hp x hx
        exact ⟨List.mem_cons_of_mem w hx1, hx2, hx3, hx4, hx5⟩

theorem passTwo_spec (ws : List Str) : ∀ f s : List Str, ∃ t,
    passTwo ws (f, s) = (f ++ t, s ++ t) ∧
    ∀ w ∈ t, w ∈ ws ∧ w ∉ stop_words ∧ 2 < w.length ∧ w ∉ s := by
  induction ws with
  | nil =>
    intro f s
    exact ⟨[], by simp [passTwo], by simp⟩
  | cons w rest ih =>
    intro f s
    by_cases hc : w ∉ s ∧ w ∉ stop_words ∧ 2 < w.length ∧ f.length < 8
    · obtain ⟨t, ht, hp⟩ := ih (f ++ [w]) (s ++ [w])
      refine ⟨w :: t, ?_, ?_⟩
      · rw [passTwo, if_pos hc, ht]
        simp
      · intro x hx
        rcases List.mem_cons.mp hx with h2 | h2
        · subst h2
          exact ⟨List.mem_cons_self x rest, hc.2.1, hc.2.2.1, hc.1⟩
        · obtain ⟨hx1, hx2, hx3, hx4⟩ := hp x h2
          refine ⟨List.mem_cons_of_mem w hx1, hx2, hx3, ?_⟩
          intro hxs
          exact hx4 (List.mem_append.mpr (Or.inl hxs))
    · obtain ⟨t, ht, hp⟩ := ih f s
      refine ⟨t, ?_, ?_⟩
      · rw [passTwo, if_neg hc, ht]
      · intro x hx
        obtain ⟨hx1, hx2, hx3, hx4⟩ := hp x hx
        exact ⟨List.mem_cons_of_mem w hx1, hx2, hx3, hx4⟩

theorem extract_keywords_spec (t : Str) (c : Option Str) :
    ∀ w ∈ extract_keywords t c,
      w ∈ keywordCandidates t c ∧ w ∉ stop_words ∧ 2 < w.length := by
  intro w hw
  unfold extract_keywords at hw
  dsimp only at hw
  obtain ⟨t1, h1, hp1⟩ := passOne_spec (keywordCandidates t c) [] []
  rw [h1] at hw
  obtain ⟨t2, h2, hp2⟩ := passTwo_spec (keywordCandidates t c) ([] ++ t1) ([] ++ t1)
  rw [h2] at hw
  have hw2 := (List.take_sublist 6 _).mem hw
  simp only [List.nil_append, List.mem_append] at hw2
  rcases hw2 with h3 | h3
  · obtain ⟨a1, a2, a3, a4, _⟩ := hp1 w h3
    exact ⟨a1, a2, a4⟩
  · obtain ⟨a1, a2, a3, _⟩ := hp2 w h3
    exact ⟨a1, a2, a3⟩

theorem extract_keywords_noU (t : Str) (c : Option Str) (w : Str)
    (hw : w ∈ extract_keywords t c) : noU w := by
  have hm := (extract_keywords_spec t c w hw).1
  intro h95
  exact absurd (keywordCandidates_alpha t c w hm 95 h95) (by decide)

/-! # Lemmas: the generated title is underscore-free -/

theorem noU_truncate_intelligently (text : Str) (m : Nat) (h : noU text) :
    noU (truncate_intelligently text m) := by
  unfold truncate_intelligently
  by_cases h1 : text.length ≤ m
  · rw [if_pos h1]
    exact h
  · rw [if_neg h1]
    cases hr : rfindSpace (text.take m) with
    | none => exact noU_append _ _ (noU_rstripSet _ _ (noU_take _ _ h)) (by decide)
    | some l =>
      dsimp only
      split
      · exact noU_rstripSet _ _ (noU_take _ _ h)
      · exact noU_append _ _ (noU_rstripSet _ _ (noU_take _ _ h)) (by decide)

theorem noU_stripPhrases (ps : List Str) : ∀ o : Str, noU o →
    noU (stripPhrases o ps).2 ∧
    ∀ r o2, stripPhrases o ps = (some r, o2) → noU r := by
  induction ps with
  | nil =>
    intro o ho
    refine ⟨ho, ?_⟩
    intro r o2 hh
    unfold stripPhrases at hh
    exact Option.noConfusion (congrArg Prod.fst hh)
  | cons p rest ih =>
    intro o ho
    have ho2 : noU (stripS (replaceAll p [] o)) :=
      noU_stripS _ (noU_replaceAll p [] o (List.not_mem_nil 95) ho)
    unfold stripPhrases
    by_cases hc : (stripS (replaceAll p [] o)).length ≤ cfg_max_length ∧
        cfg_min_length < (stripS (replaceAll p [] o)).length
    · rw [if_pos hc]
      refine ⟨ho2, ?_⟩
      intro r o2 hh
      cases hh
      exact ho2
    · rw [if_neg hc]
      exact ih _ ho2

theorem noU_applyAbbrevs (ab : List (Str × Str)) (hab : ∀ x ∈ ab, noU x.2) :
    ∀ o : Str, noU o →
    noU (applyAbbrevs o ab).2 ∧
    ∀ r o2, applyAbbrevs o ab = (some r, o2) → noU r := by
  induction ab with
  | nil =>
    intro o ho
    refine ⟨ho, ?_⟩
    intro r o2 hh
    unfold applyAbbrevs at hh
    exact Option.noConfusion (congrArg Prod.fst hh)
  | cons p rest ih =>
    intro o ho
    have ho2 : noU (replaceAll p.1 p.2 o) :=
      noU_replaceAll p.1 p.2 o (hab p (List.mem_cons_self p rest)) ho
    unfold applyAbbrevs
    by_cases hc : (replaceAll p.1 p.2 o).length ≤ cfg_max_length
    · rw [if_pos hc]
      refine ⟨ho2, ?_⟩
      intro r o2 hh
      cases hh
      exact ho2
    · rw [if_neg hc]
      exact ih (fun x hx => hab x (List.mem_cons_of_mem p hx)) _ ho2

theorem noU_optimize_title_length (t2 : Str) (ks : List Str) (h : noU t2) :
    noU (optimize_title_length t2 ks) := by
  unfold optimize_title_length
  by_cases h1 : t2.length ≤ cfg_max_length
  · rw [if_pos h1]
    exact h
  · rw [if_neg h1]
    obtain ⟨hsp2, hspr⟩ := noU_stripPhrases redundant_phrases t2 h
    rcases hsp : stripPhrases t2 redundant_phrases with ⟨ro, o1⟩
    cases ro with
    | some r => exact hspr r o1 hsp
    | none =>
      rw [hsp] at hsp2
      obtain ⟨hab2, habr⟩ := noU_applyAbbrevs abbreviations (by decide) o1 hsp2
      dsimp only
      rcases hab : applyAbbrevs o1 abbreviations with ⟨ro2, o2⟩
      cases ro2 with
      | some r => exact habr r o2 hab
      | none =>
        rw [hab] at hab2
        exact noU_truncate_intelligently o2 cfg_max_length hab2

theorem noU_generate_blog_title (topic : Str) (ks : List Str) (b : Str)
    (ht : noU topic) (hks : ∀ w ∈ ks, noU w)
    (h : generate_blog_title topic ks = some b) : noU b := by
  cases ks with
  | nil =>
    unfold generate_blog_title at h
    cases h
    exact ht
  | cons k0 rest =>
    cases rest with
    | nil => simp [generate_blog_title] at h
    | cons k1 r2 =>
      unfold generate_blog_title at h
      dsimp only at h
      have hk0 : noU k0 := hks k0 (by simp)
      have hk1 : noU k1 := hks k1 (by simp)
      have hpat : ∀ p ∈ [pat1 k0 k1, pat2 k0 k1, pat3 k0, pat4 k0, pat5 k0 k1],
          noU p := by
        intro p hp
        simp only [List.mem_cons, List.not_mem_nil, or_false] at hp
        rcases hp with h2 | h2 | h2 | h2 | h2 <;> subst h2
        · unfold pat1
          simp only [noU, List.mem_append, not_or, and_assoc]
          exact ⟨noU_titleS _ hk0, by decide, noU_titleS _ hk1, by decide⟩
        · unfold pat2
          simp only [noU, List.mem_append, not_or, and_assoc]
          exact ⟨by decide, noU_titleS _ hk0, by decide, noU_titleS _ hk1⟩
        · unfold pat3
          simp only [noU, List.mem_append, not_or, and_assoc]
          exact ⟨noU_titleS _ hk0, by decide⟩
        · unfold pat4
          simp only [noU, List.mem_append, not_or, and_assoc]
          exact ⟨by decide, noU_titleS _ hk0, by decide⟩
        · unfold pat5
          simp only [noU, List.mem_append, not_or, and_assoc]
          exact ⟨by decide, noU_titleS _ hk0, by decide, noU_titleS _ hk1⟩
      cases hf : [pat1 k0 k1, pat2 k0 k1, pat3 k0, pat4 k0, pat5 k0 k1].find?
          (fun p => decide (p.length ≤ cfg_max_length)) with
      | some p =>
        rw [hf] at h
        injection h with hpb
        subst hpb
        exact hpat _ (List.mem_of_find?_eq_some hf)
      | none =>
        rw [hf] at h
        cases h
        refine noU_joinSep _ _ (by decide) ?_
        intro q hq
        obtain ⟨w, hw, he⟩ := List.mem_map.mp hq
        subst he
        exact noU_titleS w (hks w ((List.take_sublist 3 _).mem hw))

theorem noU_generate_title_blog (topic : Str) (content : Option Str) (n : Nat)
    (rt : Str) (ht : noU topic) :
    noU (generate_title topic content (str "blog_post") n rt) := by
  show noU (match generate_blog_title topic (extract_keywords topic content) with
    | some b => optimize_title_length b (extract_keywords topic content)
    | none => fallback_title topic (str "blog_post") n)
  cases hb : generate_blog_title topic (extract_keywords topic content) with
  | some b =>
    exact noU_optimize_title_length b _ (noU_generate_blog_title topic _ b ht
      (fun w hw => extract_keywords_noU topic content w hw) hb)
  | none =>
    show noU (truncate_intelligently topic cfg_max_length)
    exact noU_truncate_intelligently topic _ ht

theorem mem_dedupKeepFirst (l : List Str) (x : Str) :
    x ∈ dedupKeepFirst l → x ∈ l := by
  induction l using dedupKeepFirst.induct with
  | case1 =>
    intro h
    simp [dedupKeepFirst] at h
  | case2 a xs ih =>
    intro h
    rw [dedupKeepFirst] at h
    rcases List.mem_cons.mp h with h2 | h2
    · exact h2 ▸ List.mem_cons_self a xs
    · exact List.mem_cons_of_mem a (List.mem_filter.mp (ih h2)).1

theorem noU_synthesize_blog_content (topic : Str) (sec threat hist : AgentResponse)
    (h1 : noU topic) (h2 : noU sec.content) (h3 : noU threat.content)
    (h4 : noU hist.content)
    (h5 : ∀ s ∈ sec.suggestions ++ threat.suggestions ++ hist.suggestions, noU s) :
    noU (synthesize_blog_content topic sec threat hist) := by
  have hjoin : ∀ (l : List Str), (∀ s ∈ l, noU s) →
      noU (str "- " ++ joinSep (str "\n- ") (l.take 3) ++ str "\n") := by
    intro l hl
    refine noU_append _ _ (noU_append _ _ (by decide) ?_) (by decide)
    exact noU_joinSep _ _ (by decide)
      (fun p hp => hl p ((List.take_sublist 3 _).mem hp))
  unfold synthesize_blog_content
  refine noU_joinSep _ _ (by decide) ?_
  intro p hp
  simp only [List.mem_cons, List.not_mem_nil, or_false] at hp
  rcases hp with h | h | h | h | h | h | h | h | h | h | h | h | h | h | h | h | h | h
    <;> subst h
  · exact noU_append _ _ (noU_append _ _ (by decide) h1) (by decide)
  · decide
  · exact noU_append _ _ (noU_append _ _ (by decide) h1) (by decide)
  · decide
  · decide
  · exact noU_append _ _ h4 (by decide)
  · decide
  · exact noU_append _ _ h2 (by decide)
  · decide
  · exact noU_append _ _ h3 (by decide)
  · decide
  · exact hjoin sec.suggestions
      (fun s hs => h5 s (by simp [hs]))
  · exact hjoin threat.suggestions
      (fun s hs => h5 s (by simp [hs]))
  · exact hjoin hist.suggestions
      (fun s hs => h5 s (by simp [hs]))
  · decide
  · exact noU_append _ _ (noU_append _ _ (by decide) h1) (by decide)
  · decide
  · decide

theorem noU_blogContentOf (topic style : Str) (sec threat hist : AgentResponse)
    (tmpl : Bool) (aud depth : Str) (dateLong dateShort : Str)
    (htopic : noU topic) (hsec : noU sec.content) (hthreat : noU threat.content)
    (hhist : noU hist.content)
    (hsug : ∀ s ∈ sec.suggestions ++ threat.suggestions ++ hist.suggestions, noU s)
    (hsrc : ∀ s ∈ sec.sources ++ threat.sources ++ hist.sources, noU s)
    (hdepth : noU depth) (haud : noU aud) (hdl : noU dateLong) (hds : noU dateShort) :
    noU (blogContentOf topic style sec threat hist tmpl aud depth dateLong dateShort) := by
  unfold blogContentOf blogTitleContent
  by_cases htm : tmpl
  · rw [if_pos htm]
    refine noU_format_blog_post _ topic sec.content threat.content hist.content _ _ _
      style dateLong dateShort (noU_generate_title_blog topic _ 1 _ htopic)
      htopic hsec hthreat hhist hsug
      (fun x hx => hsrc x (mem_dedupKeepFirst _ x hx)) hdepth haud hdl hds
  · rw [if_neg htm]
    exact noU_synthesize_blog_content topic sec threat hist htopic hsec hthreat hhist hsug

/-! # Claim C6 -/

/-- C6: the artifact's `content` is a function of the topic, style, the
three expert outputs, template availability, the configured audience and
depth, and the formatted dates alone — it does not depend on the session id,
the generated activity ids, or the tracker's clock, so two runs differing
only in that ledger parameterization produce identical content; and no
ledger field name or step label occurs as a substring of the content
(provided no input text itself smuggles one in, expressed by the
underscore-freeness hypotheses). -/
theorem C6_content_purity
    (topic style session_id1 session_id2 : Str) (sec threat hist : AgentResponse)
    (tmpl : Bool) (aud depth : Str) (uuid1 clock1 uuid2 clock2 : Nat → Nat)
    (dateLong dateShort createdAt1 createdAt2 : Str)
    (htopic : noU topic) (hsec : noU sec.content) (hthreat : noU threat.content)
    (hhist : noU hist.content)
    (hsug : ∀ s ∈ sec.suggestions ++ threat.suggestions ++ hist.suggestions, noU s)
    (hsrc : ∀ s ∈ sec.sources ++ threat.sources ++ hist.sources, noU s)
    (hdepth : noU depth) (haud : noU aud) (hdl : noU dateLong) (hds : noU dateShort) :
    (okContent (runGenerateBlogPost topic style session_id1 (Except.ok sec)
        (Except.ok threat) (Except.ok hist) tmpl aud depth uuid1 clock1
        dateLong dateShort createdAt1) =
      some (blogContentOf topic style sec threat hist tmpl aud depth dateLong dateShort) ∧
      okContent (runGenerateBlogPost topic style session_id2 (Except.ok sec)
        (Except.ok threat) (Except.ok hist) tmpl aud depth uuid2 clock2
        dateLong dateShort createdAt2) =
      some (blogContentOf topic style sec threat hist tmpl aud depth dateLong dateShort)) ∧
    (∀ tok ∈ forbiddenTokens,
      hasSub tok (blogContentOf topic style sec threat hist tmpl aud depth
        dateLong dateShort) = false) :=
  ⟨⟨rfl, rfl⟩,
   noU_no_forbidden _ (noU_blogContentOf topic style sec threat hist tmpl aud depth
     dateLong dateShort htopic hsec hthreat hhist hsug hsrc hdepth haud hdl hds)⟩

/-- Witness for C6: the purity theorem applied to a concrete run (two
different session ids, id supplies and clocks). -/
theorem C6_content_purity_witness :
    okContent (runGenerateBlogPost (str "Ransomware Defense") (str "educational")
        (str "job-1") (Except.ok sampleResponse) (Except.ok sampleResponse)
        (Except.ok sampleResponse) true (str "cybersecurity professionals")
        (str "intermediate") (fun k => k) (fun k => k)
        (str "June 01, 2025") (str "2025-06-01") (str "2025-06-01T00:00:00")) =
      okContent (runGenerateBlogPost (str "Ransomware Defense") (str "educational")
        (str "job-2") (Except.ok sampleResponse) (Except.ok sampleResponse)
        (Except.ok sampleResponse) true (str "cybersecurity professionals")
        (str "intermediate") (fun k => k + 7) (fun k => k + 100)
        (str "June 01, 2025") (str "2025-06-01") (str "2025-06-02T00:00:00")) := by
  have h := C6_content_purity (str "Ransomware Defense") (str "educational")
    (str "job-1") (str "job-2") sampleResponse sampleResponse sampleResponse
    true (str "cybersecurity professionals") (str "intermediate")
    (fun k => k) (fun k => k) (fun k => k + 7) (fun k => k + 100)
    (str "June 01, 2025") (str "2025-06-01")
    (str "2025-06-01T00:00:00") (str "2025-06-02T00:00:00")
    (by decide) (by decide) (by decide) (by decide) (by decide) (by decide)
    (by decide) (by decide) (by decide) (by decide)
  rw [h.1.1, h.1.2]

/-! # Lemmas: idempotence of the blog-title optimizer on fitting pattern titles -/

theorem lowerC_lower (c : Nat) (h1 : 97 ≤ c) (h2 : c ≤ 122) : lowerC c = c := by
  unfold lowerC
  rw [if_neg (by omega)]

theorem lowerC_upperC_lower (c : Nat) (h1 : 97 ≤ c) (h2 : c ≤ 122) :
    lowerC (upperC c) = c := by
  have hu : upperC c = c - 32 := by
    unfold upperC
    rw [if_pos ⟨h1, h2⟩]
  unfold lowerC
  rw [hu, if_pos (by omega : 65 ≤ c - 32 ∧ c - 32 ≤ 90)]
  omega

theorem lowerC_not_upper (c : Nat) : ¬(65 ≤ lowerC c ∧ lowerC c ≤ 90) := by
  unfold lowerC
  by_cases h : 65 ≤ c ∧ c ≤ 90
  · rw [if_pos h]
    omega
  · rw [if_neg h]
    omega

theorem alpha_of_lower (c : Nat) (h : isLowerAlpha c = true) : isAlphaC c = true := by
  simp only [isLowerAlpha, decide_eq_true_eq] at h
  simp only [isAlphaC, decide_eq_true_eq]
  omega

theorem word_of_lower (c : Nat) (h : isLowerAlpha c = true) : isWordC c = true := by
  simp only [isLowerAlpha, decide_eq_true_eq] at h
  simp only [isWordC, isAlphaC, isDigitC, Bool.or_eq_true, decide_eq_true_eq]
  omega

theorem lowerS_append (a b : Str) : lowerS (a ++ b) = lowerS a ++ lowerS b :=
  List.map_append lowerC a b

theorem lowerS_titleAux (s : Str) : ∀ b : Bool, (∀ c ∈ s, isLowerAlpha c = true) →
    lowerS (titleAux s b) = s := by
  induction s with
  | nil =>
    intro b _
    rfl
  | cons c cs ih =>
    intro b h
    have hc := h c (List.mem_cons_self c cs)
    have hcs : ∀ x ∈ cs, isLowerAlpha x = true :=
      fun x hx => h x (List.mem_cons_of_mem c hx)
    have hcb : 97 ≤ c ∧ c ≤ 122 := by
      simpa only [isLowerAlpha, decide_eq_true_eq] using hc
    rw [titleAux, if_pos (alpha_of_lower c hc)]
    show lowerC (if b then lowerC c else upperC c) :: lowerS (titleAux cs (isAlphaC c)) =
      c :: cs
    rw [ih (isAlphaC c) hcs]
    cases b with
    | true =>
      show lowerC (lowerC c) :: cs = c :: cs
      rw [lowerC_lower c hcb.1 hcb.2, lowerC_lower c hcb.1 hcb.2]
    | false =>
      show lowerC (upperC c) :: cs = c :: cs
      rw [lowerC_upperC_lower c hcb.1 hcb.2]

theorem lowerS_titleS (s : Str) (h : ∀ c ∈ s, isLowerAlpha c = true) :
    lowerS (titleS s) = s :=
  lowerS_titleAux s false h

theorem mem_runsByAux (p : Nat → Bool) :
    ∀ (s acc : Str), ∀ r ∈ runsByAux p acc s, ∀ c ∈ r, c ∈ acc ∨ c ∈ s := by
  intro s
  induction s with
  | nil =>
    intro acc r hr c hc
    unfold runsByAux at hr
    by_cases ha : acc = []
    · rw [if_pos ha] at hr
      exact absurd hr (List.not_mem_nil r)
    · rw [if_neg ha] at hr
      have he : r = acc.reverse := List.mem_singleton.mp hr
      exact Or.inl (List.mem_reverse.mp (he ▸ hc))
  | cons d cs ih =>
    intro acc r hr c hc
    rw [runsByAux] at hr
    by_cases hp : p d = true
    · rw [if_pos hp] at hr
      rcases ih (d :: acc) r hr c hc with h | h
      · rcases List.mem_cons.mp h with he | he
        · exact Or.inr (List.mem_cons.mpr (Or.inl he))
        · exact Or.inl he
      · exact Or.inr (List.mem_cons_of_mem d h)
    · rw [if_neg hp] at hr
      by_cases ha : acc = []
      · rw [if_pos ha] at hr
        rcases ih [] r hr c hc with h | h
        · exact absurd h (List.not_mem_nil c)
        · exact Or.inr (List.mem_cons_of_mem d h)
      · rw [if_neg ha] at hr
        rcases List.mem_cons.mp hr with he | he
        · exact Or.inl (List.mem_reverse.mp (he ▸ hc))
        · rcases ih [] r he c hc with h | h
          · exact absurd h (List.not_mem_nil c)
          · exact Or.inr (List.mem_cons_of_mem d h)

theorem tokenize_lower (s w : Str) (hw : w ∈ tokenize_text s) :
    ∀ c ∈ w, isLowerAlpha c = true := by
  intro c hc
  have halpha := tokenize_alpha s w hw c hc
  unfold tokenize_text at hw
  have h1 := (List.mem_filter.mp hw).1
  unfold regexTokens at h1
  have h2 := (List.mem_filter.mp h1).1
  unfold wordRuns runsBy at h2
  rcases mem_runsByAux isWordC (lowerS s) [] w h2 c hc with h | h
  · exact absurd h (List.not_mem_nil c)
  · unfold lowerS at h
    obtain ⟨c2, _, hcc⟩ := List.mem_map.mp h
    have hnu := lowerC_not_upper c2
    rw [hcc] at hnu
    simp only [isAlphaC, decide_eq_true_eq] at halpha
    simp only [isLowerAlpha, decide_eq_true_eq]
    omega

theorem runsByAux_word (p : Nat → Bool) (w : Str) :
    (∀ c ∈ w, p c = true) → ∀ acc cs : Str,
      runsByAux p acc (w ++ cs) = runsByAux p (w.reverse ++ acc) cs := by
  induction w with
  | nil =>
    intro _ acc cs
    simp only [List.nil_append, List.reverse_nil]
  | cons c cw ih =>
    intro hw acc cs
    rw [List.cons_append, runsByAux, if_pos (hw c (List.mem_cons_self c cw))]
    rw [ih (fun x hx => hw x (List.mem_cons_of_mem c hx)) (c :: acc) cs]
    rw [List.reverse_cons, List.append_assoc]
    simp only [List.singleton_append]

theorem runsByAux_stop (p : Nat → Bool) (d : Nat) (hd : p d = false) (acc : Str)
    (hacc : acc ≠ []) (cs : Str) :
    runsByAux p acc (d :: cs) = acc.reverse :: runsByAux p [] cs := by
  rw [runsByAux, if_neg (by simp [hd]), if_neg hacc]

theorem runsBy_word_sep (p : Nat → Bool) (w : Str) (hw : ∀ c ∈ w, p c = true)
    (hne : w ≠ []) (d : Nat) (hd : p d = false) (cs : Str) :
    runsBy p (w ++ d :: cs) = w :: runsBy p cs := by
  unfold runsBy
  rw [runsByAux_word p w hw [] (d :: cs), List.append_nil]
  rw [runsByAux_stop p d hd w.reverse (by simpa using hne) cs, List.reverse_reverse]

theorem tokenize_pat1 (k0 k1 : Str)
    (h0 : ∀ c ∈ k0, isLowerAlpha c = true) (h1 : ∀ c ∈ k1, isLowerAlpha c = true)
    (hl0 : 2 < k0.length) (hl1 : 2 < k1.length) :
    tokenize_text (pat1 k0 k1) = [k0, k1, str "complete", str "guide"] := by
  have hne0 : k0 ≠ [] := by
    intro he
    rw [he] at hl0
    simp at hl0
  have hne1 : k1 ≠ [] := by
    intro he
    rw [he] at hl1
    simp at hl1
  have hw0 : ∀ c ∈ k0, isWordC c = true := fun c hc => word_of_lower c (h0 c hc)
  have hw1 : ∀ c ∈ k1, isWordC c = true := fun c hc => word_of_lower c (h1 c hc)
  have hlow : lowerS (pat1 k0 k1) =
      k0 ++ 32 :: (k1 ++ 58 :: str " a complete guide") := by
    unfold pat1
    rw [lowerS_append, lowerS_append, lowerS_append]
    rw [lowerS_titleS k0 h0, lowerS_titleS k1 h1]
    have e1 : lowerS (str " ") = [32] := by decide
    have e2 : lowerS (str ": A Complete Guide") = 58 :: str " a complete guide" := by
      decide
    rw [e1, e2]
    simp only [List.append_assoc, List.singleton_append, List.cons_append,
      List.nil_append]
  unfold tokenize_text regexTokens wordRuns
  rw [hlow]
  rw [runsBy_word_sep isWordC k0 hw0 hne0 32 (by decide) _]
  rw [runsBy_word_sep isWordC k1 hw1 hne1 58 (by decide) _]
  have e3 : runsBy isWordC (str " a complete guide") =
      [str "a", str "complete", str "guide"] := by decide
  rw [e3]
  have e4 : List.filter (fun r => r.all isAlphaC)
      [str "a", str "complete", str "guide"] = [str "a", str "complete", str "guide"] := by
    decide
  have e5 : List.filter (fun w => decide (2 < w.length))
      [str "a", str "complete", str "guide"] = [str "complete", str "guide"] := by
    decide
  have f1 : List.filter (fun r => r.all isAlphaC)
      (k0 :: k1 :: [str "a", str "complete", str "guide"]) =
      k0 :: k1 :: [str "a", str "complete", str "guide"] := by
    rw [List.filter_cons_of_pos
      (by exact List.all_eq_true.mpr (fun c hc => alpha_of_lower c (h0 c hc)))]
    rw [List.filter_cons_of_pos
      (by exact List.all_eq_true.mpr (fun c hc => alpha_of_lower c (h1 c hc)))]
    rw [e4]
  have f2 : List.filter (fun w => decide (2 < w.length))
      (k0 :: k1 :: [str "a", str "complete", str "guide"]) =
      [k0, k1, str "complete", str "guide"] := by
    rw [List.filter_cons_of_pos (by exact decide_eq_true hl0)]
    rw [List.filter_cons_of_pos (by exact decide_eq_true hl1)]
    rw [e5]
  rw [f1, f2]

theorem passOne_cons_pos (w : Str) (rest : List Str) (f s : List Str)
    (h : w ∉ s ∧ w ∉ stop_words ∧ w ∈ cybersecurity_keywords ∧ 2 < w.length) :
    passOne (w :: rest) (f, s) = passOne rest (f ++ [w], s ++ [w]) := by
  rw [passOne, if_pos h]

theorem passOne_cons_neg (w : Str) (rest : List Str) (f s : List Str)
    (h : ¬(w ∉ s ∧ w ∉ stop_words ∧ w ∈ cybersecurity_keywords ∧ 2 < w.length)) :
    passOne (w :: rest) (f, s) = passOne rest (f, s) := by
  rw [passOne, if_neg h]

theorem passTwo_cons_pos (w : Str) (rest : List Str) (f s : List Str)
    (h : w ∉ s ∧ w ∉ stop_words ∧ 2 < w.length ∧ f.length < 8) :
    passTwo (w :: rest) (f, s) = passTwo rest (f ++ [w], s ++ [w]) := by
  rw [passTwo, if_pos h]

theorem passTwo_cons_neg (w : Str) (rest : List Str) (f s : List Str)
    (h : ¬(w ∉ s ∧ w ∉ stop_words ∧ 2 < w.length ∧ f.length < 8)) :
    passTwo (w :: rest) (f, s) = passTwo rest (f, s) := by
  rw [passTwo, if_neg h]

theorem passOne_seen_complete : ∀ (ws : List Str) (f s : List Str) (w : Str),
    w ∈ ws → w ∉ stop_words → w ∈ cybersecurity_keywords → 2 < w.length →
    w ∈ (passOne ws (f, s)).2 := by
  intro ws
  induction ws with
  | nil =>
    intro f s w hw _ _ _
    exact absurd hw (List.not_mem_nil w)
  | cons v rest ih =>
    intro f s w hw hstop hcyb hlen
    by_cases hc : v ∉ s ∧ v ∉ stop_words ∧ v ∈ cybersecurity_keywords ∧ 2 < v.length
    · rw [passOne_cons_pos v rest f s hc]
      rcases List.mem_cons.mp hw with he | he
      · obtain ⟨tt, htt, _⟩ := passOne_spec rest (f ++ [v]) (s ++ [v])
        rw [htt]
        subst he
        exact List.mem_append.mpr
          (Or.inl (List.mem_append.mpr (Or.inr (List.mem_singleton.mpr rfl))))
      · exact ih (f ++ [v]) (s ++ [v]) w he hstop hcyb hlen
    · rw [passOne_cons_neg v rest f s hc]
      rcases List.mem_cons.mp hw with he | he
      · subst he
        have hvs : w ∈ s := by
          by_contra hns
          exact hc ⟨hns, hstop, hcyb, hlen⟩
        obtain ⟨tt, htt, _⟩ := passOne_spec rest f s
        rw [htt]
        exact List.mem_append.mpr (Or.inl hvs)
      · exact ih f s w he hstop hcyb hlen

theorem passOne_seen_nodup : ∀ (ws : List Str) (f s : List Str), s.Nodup →
    ((passOne ws (f, s)).2).Nodup := by
  intro ws
  induction ws with
  | nil =>
    intro f s hs
    exact hs
  | cons w rest ih =>
    intro f s hs
    by_cases hc : w ∉ s ∧ w ∉ stop_words ∧ w ∈ cybersecurity_keywords ∧ 2 < w.length
    · rw [passOne_cons_pos w rest f s hc]
      refine ih (f ++ [w]) (s ++ [w]) ?_
      rw [List.nodup_append]
      exact ⟨hs, List.nodup_singleton w,
        fun a ha hw2 => hc.1 ((List.mem_singleton.mp hw2) ▸ ha)⟩
    · rw [passOne_cons_neg w rest f s hc]
      exact ih f s hs

theorem passTwo_seen_nodup : ∀ (ws : List Str) (f s : List Str), s.Nodup →
    ((passTwo ws (f, s)).2).Nodup := by
  intro ws
  induction ws with
  | nil =>
    intro f s hs
    exact hs
  | cons w rest ih =>
    intro f s hs
    by_cases hc : w ∉ s ∧ w ∉ stop_words ∧ 2 < w.length ∧ f.length < 8
    · rw [passTwo_cons_pos w rest f s hc]
      refine ih (f ++ [w]) (s ++ [w]) ?_
      rw [List.nodup_append]
      exact ⟨hs, List.nodup_singleton w,
        fun a ha hw2 => hc.1 ((List.mem_singleton.mp hw2) ▸ ha)⟩
    · rw [passTwo_cons_neg w rest f s hc]
      exact ih f s hs

theorem extract_keywords_nodup (t : Str) (c : Option Str) :
    (extract_keywords t c).Nodup := by
  unfold extract_keywords
  dsimp only
  obtain ⟨t1, h1, _⟩ := passOne_spec (keywordCandidates t c) [] []
  have ht1n : ((passOne (keywordCandidates t c) ([], [])).2).Nodup :=
    passOne_seen_nodup _ [] [] List.nodup_nil
  rw [h1] at ht1n ⊢
  simp only [List.nil_append] at ht1n ⊢
  obtain ⟨t2, h2, _⟩ := passTwo_spec (keywordCandidates t c) t1 t1
  have ht2n : ((passTwo (keywordCandidates t c) (t1, t1)).2).Nodup :=
    passTwo_seen_nodup _ t1 t1 ht1n
  rw [h2] at ht2n ⊢
  dsimp only at ht2n ⊢
  exact List.Nodup.sublist (List.take_sublist 6 _) ht2n

theorem extract_keywords_cyber_first (t : Str) (c : Option Str) (k0 k1 : Str)
    (rest : List Str) (hk : extract_keywords t c = k0 :: k1 :: rest)
    (h0 : k0 ∉ cybersecurity_keywords) : k1 ∉ cybersecurity_keywords := by
  unfold extract_keywords at hk
  dsimp only at hk
  obtain ⟨t1, h1, hp1⟩ := passOne_spec (keywordCandidates t c) [] []
  rw [h1] at hk
  simp only [List.nil_append] at hk
  obtain ⟨t2, h2, hp2⟩ := passTwo_spec (keywordCandidates t c) t1 t1
  rw [h2] at hk
  dsimp only at hk
  have ht2nc : ∀ w ∈ t2, w ∉ cybersecurity_keywords := by
    intro w hw hwc
    obtain ⟨hws, hstop, hlen, hnis⟩ := hp2 w hw
    have hseen : w ∈ (passOne (keywordCandidates t c) ([], [])).2 :=
      passOne_seen_complete _ [] [] w hws hstop hwc hlen
    rw [h1] at hseen
    simp only [List.nil_append] at hseen
    exact hnis hseen
  cases t1 with
  | nil =>
    simp only [List.nil_append] at hk
    have hsub := List.take_sublist 6 t2
    rw [hk] at hsub
    exact ht2nc k1
      (hsub.mem (List.mem_cons_of_mem k0 (List.mem_cons_self k1 rest)))
  | cons a t1x =>
    rw [List.cons_append] at hk
    have hk6 : (a :: (t1x ++ t2)).take 6 = a :: (t1x ++ t2).take 5 := rfl
    rw [hk6] at hk
    injection hk with ha _
    have hacyb := (hp1 a (List.mem_cons_self a t1x)).2.2.1
    rw [ha] at hacyb
    exact absurd hacyb h0

theorem extract_keywords_pat1 (t : Str) (k0 k1 : Str) (rest : List Str)
    (hk : extract_keywords t none = k0 :: k1 :: rest) :
    ∃ r, extract_keywords (pat1 k0 k1) none = k0 :: k1 :: r := by
  have hm0 : k0 ∈ extract_keywords t none := by
    rw [hk]
    exact List.mem_cons_self k0 (k1 :: rest)
  have hm1 : k1 ∈ extract_keywords t none := by
    rw [hk]
    exact List.mem_cons_of_mem k0 (List.mem_cons_self k1 rest)
  obtain ⟨hc0, hs0, hl0⟩ := extract_keywords_spec t none k0 hm0
  obtain ⟨hc1, hs1, hl1⟩ := extract_keywords_spec t none k1 hm1
  have htk0 : k0 ∈ tokenize_text t := by
    unfold keywordCandidates at hc0
    rcases List.mem_append.mp hc0 with h | h
    · exact h
    · exact absurd h (List.not_mem_nil k0)
  have htk1 : k1 ∈ tokenize_text t := by
    unfold keywordCandidates at hc1
    rcases List.mem_append.mp hc1 with h | h
    · exact h
    · exact absurd h (List.not_mem_nil k1)
  have hlow0 : ∀ c ∈ k0, isLowerAlpha c = true := tokenize_lower t k0 htk0
  have hlow1 : ∀ c ∈ k1, isLowerAlpha c = true := tokenize_lower t k1 htk1
  have hnd := extract_keywords_nodup t none
  rw [hk] at hnd
  have hne : k0 ≠ k1 :=
    fun he => (List.nodup_cons.mp hnd).1 (List.mem_cons.mpr (Or.inl he))
  have hws : keywordCandidates (pat1 k0 k1) none =
      [k0, k1, str "complete", str "guide"] := by
    unfold keywordCandidates
    rw [tokenize_pat1 k0 k1 hlow0 hlow1 hl0 hl1]
    show [k0, k1, str "complete", str "guide"] ++ [] =
      [k0, k1, str "complete", str "guide"]
    rw [List.append_nil]
  unfold extract_keywords
  dsimp only
  rw [hws]
  obtain ⟨t2, ht2, _⟩ := passTwo_spec [str "complete", str "guide"] [k0, k1] [k0, k1]
  by_cases hc0c : k0 ∈ cybersecurity_keywords
  · by_cases hc1c : k1 ∈ cybersecurity_keywords
    · have e1 : passOne [k0, k1, str "complete", str "guide"] ([], []) =
          ([k0, k1], [k0, k1]) := by
        rw [passOne_cons_pos k0 [k1, str "complete", str "guide"] [] []
          ⟨List.not_mem_nil k0, hs0, hc0c, hl0⟩]
        rw [passOne_cons_pos k1 [str "complete", str "guide"] ([] ++ [k0]) ([] ++ [k0])
          ⟨by
            intro hm
            simp only [List.nil_append, List.mem_singleton] at hm
            exact hne hm.symm, hs1, hc1c, hl1⟩]
        rw [passOne_cons_neg (str "complete") [str "guide"] _ _
          (fun hcc => absurd hcc.2.2.1 (by decide))]
        rw [passOne_cons_neg (str "guide") [] _ _
          (fun hcc => absurd hcc.2.2.1 (by decide))]
        rfl
      refine ⟨t2.take 4, ?_⟩
      rw [e1]
      rw [passTwo_cons_neg k0 [k1, str "complete", str "guide"] [k0, k1] [k0, k1]
        (fun hcc => hcc.1 (List.mem_cons_self k0 [k1]))]
      rw [passTwo_cons_neg k1 [str "complete", str "guide"] [k0, k1] [k0, k1]
        (fun hcc => hcc.1 (List.mem_cons_of_mem k0 (List.mem_cons_self k1 [])))]
      rw [ht2]
      rfl
    · have e1 : passOne [k0, k1, str "complete", str "guide"] ([], []) =
          ([k0], [k0]) := by
        rw [passOne_cons_pos k0 [k1, str "complete", str "guide"] [] []
          ⟨List.not_mem_nil k0, hs0, hc0c, hl0⟩]
        rw [passOne_cons_neg k1 [str "complete", str "guide"] _ _
          (fun hcc => hc1c hcc.2.2.1)]
        rw [passOne_cons_neg (str "complete") [str "guide"] _ _
          (fun hcc => absurd hcc.2.2.1 (by decide))]
        rw [passOne_cons_neg (str "guide") [] _ _
          (fun hcc => absurd hcc.2.2.1 (by decide))]
        rfl
      refine ⟨t2.take 4, ?_⟩
      rw [e1]
      rw [passTwo_cons_neg k0 [k1, str "complete", str "guide"] [k0] [k0]
        (fun hcc => hcc.1 (List.mem_cons_self k0 []))]
      rw [passTwo_cons_pos k1 [str "complete", str "guide"] [k0] [k0]
        ⟨fun hm => hne (List.mem_singleton.mp hm).symm, hs1, hl1, by simp⟩]
      simp only [List.nil_append, List.singleton_append]
      rw [ht2]
      rfl
  · have hc1c : k1 ∉ cybersecurity_keywords :=
      extract_keywords_cyber_first t none k0 k1 rest hk hc0c
    have e1 : passOne [k0, k1, str "complete", str "guide"] ([], []) = ([], []) := by
      rw [passOne_cons_neg k0 [k1, str "complete", str "guide"] [] []
        (fun hcc => hc0c hcc.2.2.1)]
      rw [passOne_cons_neg k1 [str "complete", str "guide"] [] []
        (fun hcc => hc1c hcc.2.2.1)]
      rw [passOne_cons_neg (str "complete") [str "guide"] [] []
        (fun hcc => absurd hcc.2.2.1 (by decide))]
      rw [passOne_cons_neg (str "guide") [] [] []
        (fun hcc => absurd hcc.2.2.1 (by decide))]
      rfl
    refine ⟨t2.take 4, ?_⟩
    rw [e1]
    rw [passTwo_cons_pos k0 [k1, str "complete", str "guide"] [] []
      ⟨List.not_mem_nil k0, hs0, hl0, by decide⟩]
    rw [passTwo_cons_pos k1 [str "complete", str "guide"] ([] ++ [k0]) ([] ++ [k0])
      ⟨by
        intro hm
        simp only [List.nil_append, List.mem_singleton] at hm
        exact hne hm.symm, hs1, hl1, by simp⟩]
    simp only [List.nil_append, List.singleton_append]
    rw [ht2]
    rfl

theorem generate_blog_title_pat1_fit (topic k0 k1 : Str) (rest : List Str)
    (hfit : (pat1 k0 k1).length ≤ cfg_max_length) :
    generate_blog_title topic (k0 :: k1 :: rest) = some (pat1 k0 k1) := by
  unfold generate_blog_title
  dsimp only
  have hf : List.find? (fun p => decide (p.length ≤ cfg_max_length))
      [pat1 k0 k1, pat2 k0 k1, pat3 k0, pat4 k0, pat5 k0 k1] = some (pat1 k0 k1) :=
    List.find?_cons_of_pos _ (decide_eq_true hfit)
  rw [hf]

theorem optimize_title_length_fit (title : Str) (ks : List Str)
    (h : title.length ≤ cfg_max_length) : optimize_title_length title ks = title := by
  unfold optimize_title_length
  rw [if_pos h]

/-- C9 (counterexample): the title optimizer is not idempotent. For the
degenerate topic `c9topic` the first pass selects the third engaging pattern
("... Best Practices for Modern Security"); re-optimizing that output
re-extracts keywords, now finds the cybersecurity keyword "security" first,
and produces a different pattern-1 title, so a second application changes
the string again. -/
theorem C9_counterexample :
    optimize (optimize c9topic) ≠ optimize c9topic := by decide

/-- C9 (corrected): `optimize(optimize(t, L), L) = optimize(t, L)` does not
hold for every topic, but idempotence does hold on the main blog path:
whenever keyword extraction yields at least two keywords and the first
engaging pattern built from them fits within the configured maximum length,
the optimizer returns exactly that pattern title, and re-optimizing that
title reproduces the same two leading keywords and hence the same title. -/
theorem C9_optimize_idempotent_on_first_pattern (t : Str) (k0 k1 : Str)
    (rest : List Str) (hk : extract_keywords t none = k0 :: k1 :: rest)
    (hfit : (pat1 k0 k1).length ≤ cfg_max_length) :
    optimize (optimize t) = optimize t := by
  have ho1 : optimize t = pat1 k0 k1 := by
    show (match generate_blog_title t (extract_keywords t none) with
      | some b => optimize_title_length b (extract_keywords t none)
      | none => fallback_title t (str "blog_post") 1) = pat1 k0 k1
    rw [hk, generate_blog_title_pat1_fit t k0 k1 rest hfit]
    exact optimize_title_length_fit (pat1 k0 k1) (k0 :: k1 :: rest) hfit
  have ho2 : optimize (pat1 k0 k1) = pat1 k0 k1 := by
    obtain ⟨r, hr⟩ := extract_keywords_pat1 t k0 k1 rest hk
    show (match generate_blog_title (pat1 k0 k1) (extract_keywords (pat1 k0 k1) none) with
      | some b => optimize_title_length b (extract_keywords (pat1 k0 k1) none)
      | none => fallback_title (pat1 k0 k1) (str "blog_post") 1) = pat1 k0 k1
    rw [hr, generate_blog_title_pat1_fit (pat1 k0 k1) k0 k1 r hfit]
    exact optimize_title_length_fit (pat1 k0 k1) (k0 :: k1 :: r) hfit
  rw [ho1]
  exact ho2

/-- Witness for the corrected C9 theorem at the topic "ransomware defense",
whose extracted keywords are exactly ["ransomware", "defense"] and whose
pattern-1 title "Ransomware Defense: A Complete Guide" fits within 80
characters. -/
theorem C9_optimize_idempotent_on_first_pattern_witness :
    (extract_keywords (str "ransomware defense") none =
        [str "ransomware", str "defense"] ∧
      (pat1 (str "ransomware") (str "defense")).length ≤ cfg_max_length) ∧
      optimize (optimize (str "ransomware defense")) =
        optimize (str "ransomware defense") :=
  ⟨⟨by decide, by decide⟩,
    C9_optimize_idempotent_on_first_pattern (str "ransomware defense")
      (str "ransomware") (str "defense") [] (by decide) (by decide)⟩

end CyberResearcher
